import Mathlib

/-!
# cms-encryption-go: a shallow embedding of `encrypt.go` and `main.go`

The program is glue code around two libraries: OpenSSL (through cgo) and the Go
standard library (`os`, `encoding/pem`, `crypto/x509`, `fmt`).  The functions of the
repository (`bytesFromBio`, `loadCert`, `getOpenSSLError`, `EncryptCMS`, `Run`, `main`)
are translated statement by statement into a small monad `Go` that threads the file
system, records every library call in a trace and distinguishes a normal return from a
Go run-time panic.  What the libraries answer is not in the repository, so it is a
parameter (`OpenSSL`, `Env`): every theorem quantifies over all possible answers.
-/

namespace CmsEncryption

/-! ## Go values -/

/-- Go `error` values that the program builds or receives. -/
inductive GoError where
  /-- The value of `errors.New(msg)`. -/
  | new (msg : String)
  /-- The value of `fmt.Errorf(ctx + "%w", inner)` with a non-nil `inner`. -/
  | wrap (ctx : String) (inner : GoError)
  /-- The value of `fmt.Errorf(ctx + "%w", nil)`: the verb is given a nil error. -/
  | wrapNil (ctx : String)
  /-- A `*fs.PathError` with its fields Op, Path and Err: the error type of `os.ReadFile`,
  `os.OpenFile` and `File.Write`. -/
  | pathError (op path err : String)
  deriving DecidableEq, Repr

/-- The method `Error()`: the message of an error value. -/
def GoError.Error : GoError → String
  | .new msg => msg
  | .wrap ctx inner => ctx ++ inner.Error
  | .wrapNil ctx => ctx ++ "%!w(<nil>)"
  | .pathError op path err => op ++ " " ++ path ++ ": " ++ err

/-- The call `fmt.Errorf(ctx + "%w", e)` for an `error` interface value `e` that may be nil. -/
def Errorf (ctx : String) (e : Option GoError) : GoError :=
  match e with
  | some inner => .wrap ctx inner
  | none => .wrapNil ctx

/-- The conversion `[]byte(s)`. -/
def bytesOf (s : String) : List UInt8 := s.toUTF8.data.toList

/-- The conversion `C.int(n)`: truncation of a wider integer to a signed 32-bit integer. -/
def cInt (n : Int) : Int := (n + 2 ^ 31) % 2 ^ 32 - 2 ^ 31

/-- The part of `x509.Certificate` that the program reads: the field `Raw`. -/
structure Certificate where
  Raw : List UInt8
  deriving DecidableEq, Repr

/-- A `pem.Block`. -/
structure PemBlock where
  Type_ : String
  Bytes : List UInt8
  deriving DecidableEq, Repr

/-- The struct `opts` of `main.go`. -/
structure opts where
  CertificatePath : String
  Message : String
  OutFile : String
  deriving DecidableEq, Repr

/-! ## Events -/

/-- Addresses of native objects; a NULL pointer is `none : Option Addr`. -/
abbrev Addr := Nat

/-- The flag `CMS_BINARY` of `openssl/cms.h`. -/
def CMS_BINARY : Nat := 0x80

/-- The flag `CMS_PARTIAL` of `openssl/cms.h`. -/
def CMS_PARTIAL : Nat := 0x4000

/-- The cgo calls of `encrypt.go`, each with the arguments the program passes and, for the
allocating calls, the pointer the library returned. -/
inductive Call where
  | EVP_aes_128_gcm
  /-- The call `CMS_encrypt(certs, in, EVP_aes_128_gcm(), flags)` and its result. -/
  | CMS_encrypt (certs : Option Addr) (inp : Option Addr) (flags : Nat) (res : Option Addr)
  /-- The call `C.CBytes(b)` and the address of the copy. -/
  | CBytes (b : List UInt8) (res : Addr)
  /-- The call `d2i_X509(nil, &ptr, len)` and its result. -/
  | d2i_X509 (ptr : Addr) (len : Int) (res : Option Addr)
  | free (ptr : Addr)
  | ERR_get_error
  | ERR_error_string (code : Nat)
  | CMS_add1_recipient_cert (cms cert : Addr) (flags : Nat)
  /-- The call `BIO_new_mem_buf(&data[0], len)` and its result. -/
  | BIO_new_mem_buf (len : Int) (res : Option Addr)
  | CMS_final (cms bio : Addr)
  | BIO_s_mem
  /-- The call `BIO_new(BIO_s_mem())` and its result. -/
  | BIO_new (res : Option Addr)
  | PEM_write_bio_CMS_stream (bio cms : Addr)
  | MACRO_BIO_get_mem_data (bio : Addr)
  /-- The call `C.GoBytes(ptr, n)`. -/
  | GoBytes (n : Int)
  | CMS_ContentInfo_free (cms : Addr)
  | X509_free (cert : Addr)
  | BIO_free (bio : Addr)
  deriving DecidableEq, Repr

/-- The flags of `os.OpenFile`. -/
inductive OFlag where
  | O_RDONLY | O_WRONLY | O_RDWR | O_APPEND | O_CREATE | O_EXCL | O_SYNC | O_TRUNC
  deriving DecidableEq, Repr

/-- Everything observable that the program does, in the order it does it. -/
inductive Event where
  | lib (c : Call)
  | ReadFile (name : String)
  | pemDecode (data : List UInt8)
  | ParseCertificate (der : List UInt8)
  | OpenFile (name : String) (flag : List OFlag) (perm : Nat)
  | Write (name : String) (b : List UInt8)
  | Close (name : String)
  /-- One call of `fmt.Println`: the bytes of the line, without the final newline -/
  | Println (line : List UInt8)
  deriving DecidableEq, Repr

/-! ## The monad of Go function bodies -/

/-- How a Go function call ends: it returns, or it panics. -/
inductive Outcome (α : Type) where
  | ret (a : α)
  | panic (msg : String)
  deriving DecidableEq, Repr

/-- The file system: the content of each existing file. -/
abbrev FS := String → Option (List UInt8)

/-- The result of running a piece of Go code: how it ended, the file system it left and
the events it produced. -/
structure Step (α : Type) where
  out : Outcome α
  fs : FS
  trace : List Event

/-- A piece of Go code, run from a given file system. -/
def Go (α : Type) : Type := FS → Step α

/-- Return of a value without any effect. -/
def Go.pure {α : Type} (a : α) : Go α := fun fs => ⟨.ret a, fs, []⟩

/-- Sequencing: the second part runs only if the first one did not panic. -/
def Go.bind {α β : Type} (m : Go α) (f : α → Go β) : Go β := fun fs =>
  let s := m fs
  match s.out with
  | .ret a =>
    let s2 := f a s.fs
    ⟨s2.out, s2.fs, s.trace ++ s2.trace⟩
  | .panic msg => ⟨.panic msg, s.fs, s.trace⟩

instance : Monad Go where
  pure := Go.pure
  bind := Go.bind

/-- A Go run-time panic. -/
def Go.panic {α : Type} (msg : String) : Go α := fun fs => ⟨.panic msg, fs, []⟩

/-- One event. -/
def emit (e : Event) : Go Unit := fun fs => ⟨.ret (), fs, [e]⟩

/-- One cgo call. -/
def call (c : Call) : Go Unit := emit (.lib c)

/-- The statement `defer cleanup` followed by `body`, the rest of the function: the
deferred call runs when the rest of the function ends, whether it returns or panics, and
the function ends the way `body` ended.  The arguments of the deferred call are the
values at the `defer` statement. -/
def defer_ {α : Type} (cleanup : Go Unit) (body : Go α) : Go α := fun fs =>
  let s := body fs
  let c := cleanup s.fs
  ⟨s.out, c.fs, s.trace ++ c.trace⟩

/-! ## The libraries -/

/-- What OpenSSL and cgo answer during one call of `EncryptCMS`. -/
structure OpenSSL where
  /-- The result of `CMS_encrypt` -/
  cmsEncrypt : Option Addr
  /-- The address of the copy made by `C.CBytes` -/
  cBytes : Addr
  /-- The result of `d2i_X509` -/
  d2iX509 : Option Addr
  /-- Whether `CMS_add1_recipient_cert` returned a non-NULL recipient info -/
  addRecipient : Bool
  /-- The result of `BIO_new_mem_buf` -/
  bioNewMemBuf : Option Addr
  /-- The return code of `CMS_final` -/
  cmsFinal : Int
  /-- The result of `BIO_new` -/
  bioNew : Option Addr
  /-- The return code of `PEM_write_bio_CMS_stream` -/
  pemWrite : Int
  /-- The `long` returned by `BIO_get_mem_data` on the output buffer -/
  memSize : Int
  /-- The bytes that `PEM_write_bio_CMS_stream` writes into the BIO it is given -/
  pemOutput : List UInt8
  /-- A positive size reported for the output buffer is the number of bytes written to it -/
  memValid : 0 < memSize → memSize = pemOutput.length
  /-- The result of `ERR_get_error`, 0 when the error queue is empty -/
  errGetError : Nat
  /-- The string `ERR_error_string(code, nil)`. -/
  errErrorString : Nat → String

/-- What the operating system and the Go standard library answer during one run. -/
structure Env where
  ssl : OpenSSL
  /-- An I/O error of `os.ReadFile` other than a missing file: the fields Op and Err of
  the `*fs.PathError` -/
  readFault : Option (String × String)
  /-- The first result of `pem.Decode`. -/
  pemDecode : List UInt8 → Option PemBlock
  /-- The function `x509.ParseCertificate`. -/
  ParseCertificate : List UInt8 → Except GoError Certificate
  /-- An error of `os.OpenFile` (permissions, a directory in the way, ...) -/
  openFault : Option String
  /-- An error of `File.Write` after the given number of bytes -/
  writeFault : Option (Nat × String)

/-! ## `encrypt.go` -/

/-- The content of the memory BIOs that `BIO_new` made, by address. -/
abbrev Bios := Addr → List UInt8

/-- The memory BIOs after `b` was written to the one at `bio`. -/
def Bios.write (bios : Bios) (bio : Addr) (b : List UInt8) : Bios :=
  fun a => if a = bio then bios a ++ b else bios a

/-- The function `bytesFromBio`; `bios` is the content of the memory BIOs when it is
called, and the pointer that `BIO_get_mem_data` stores points to the content of `bio`. -/
def bytesFromBio (ssl : OpenSSL) (bios : Bios) (bio : Addr) :
    Go (Except GoError (List UInt8)) := do
  call (.MACRO_BIO_get_mem_data bio)
  let size := ssl.memSize
  let ptr := bios bio
  if size ≤ 0 then
    return .error (.new "no output data")
  else
    -- C.GoBytes(unsafe.Pointer(ptr), C.int(size))
    let n := cInt size
    call (.GoBytes n)
    if n < 0 then
      Go.panic "runtime error: gobytes: length out of range"
    else
      return .ok (ptr.take n.toNat)

/-- The function `getOpenSSLError`. -/
def getOpenSSLError (ssl : OpenSSL) : Go (Option GoError) := do
  call .ERR_get_error
  let errCode := ssl.errGetError
  if errCode = 0 then
    return none
  else
    call (.ERR_error_string errCode)
    return some (.new (ssl.errErrorString errCode))

/-- The function `loadCert`; a nil `*x509.Certificate` is `none`. -/
def loadCert (ssl : OpenSSL) (cert : Option Certificate) : Go (Except GoError Addr) :=
  match cert with
  | none => return .error (.new "invalid certificate input")
  | some cert =>
    if cert.Raw.length = 0 then
      return .error (.new "invalid certificate input")
    else do
      let certLength : Int := cert.Raw.length
      call (.CBytes cert.Raw ssl.cBytes)
      let ptr := ssl.cBytes
      defer_ (call (.free ptr)) do
        call (.d2i_X509 ptr certLength ssl.d2iX509)
        match ssl.d2iX509 with
        | none => return .error (Errorf "error parsing DER certificate: " (← getOpenSSLError ssl))
        | some cCert => return .ok cCert

/-- The function `EncryptCMS`; a nil recipient is `none`. -/
def EncryptCMS (ssl : OpenSSL) (data : List UInt8) (recipient : Option Certificate) :
    Go (Except GoError (List UInt8)) := do
  call .EVP_aes_128_gcm
  call (.CMS_encrypt none none (CMS_PARTIAL ||| CMS_BINARY) ssl.cmsEncrypt)
  match ssl.cmsEncrypt with
  | none => return .error (Errorf "CMS_encrypt failed: " (← getOpenSSLError ssl))
  | some cms =>
    defer_ (call (.CMS_ContentInfo_free cms)) do
      match ← loadCert ssl recipient with
      | .error err => return .error (Errorf "load cert: " (some err))
      | .ok cert =>
        defer_ (call (.X509_free cert)) do
          call (.CMS_add1_recipient_cert cms cert 0)
          if ssl.addRecipient = false then
            return .error (Errorf "CMS_add1_recipient_cert failed: " (← getOpenSSLError ssl))
          else
            -- &data[0]: an index expression, checked against len(data)
            if data.length = 0 then
              Go.panic "runtime error: index out of range [0] with length 0"
            else
              call (.BIO_new_mem_buf (cInt data.length) ssl.bioNewMemBuf)
              match ssl.bioNewMemBuf with
              | none => return .error (.new "failed to create input BIO")
              | some bioIn =>
                defer_ (call (.BIO_free bioIn)) do
                  call (.CMS_final cms bioIn)
                  if ssl.cmsFinal ≠ 1 then
                    return .error (Errorf "CMS_final failed: " (← getOpenSSLError ssl))
                  else
                    call .BIO_s_mem
                    call (.BIO_new ssl.bioNew)
                    match ssl.bioNew with
                    | none => return .error (.new "failed to create output BIO")
                    | some bioOut =>
                      -- a new memory BIO is empty
                      let bios : Bios := fun _ => []
                      defer_ (call (.BIO_free bioOut)) do
                        call (.PEM_write_bio_CMS_stream bioOut cms)
                        let bios := bios.write bioOut ssl.pemOutput
                        if ssl.pemWrite ≠ 1 then
                          return .error (Errorf "i2d_CMS_bio_stream failed: " (← getOpenSSLError ssl))
                        else
                          bytesFromBio ssl bios bioOut

/-! ## The operating system and the standard library -/

/-- An open `*os.File`: its name, its offset and whether it was opened with `O_APPEND`. -/
structure File where
  name : String
  offset : Nat
  append : Bool
  deriving DecidableEq, Repr

/-- The file system with the content of one file replaced. -/
def setFile (fs : FS) (name : String) (content : List UInt8) : FS :=
  fun n => if n = name then some content else fs n

/-- The content of a file after `b` is written at offset `off` over `old`: bytes before
the offset and after the written range stay, a gap is filled with zero bytes. -/
def overwrite (old : List UInt8) (off : Nat) (b : List UInt8) : List UInt8 :=
  old.take off ++ List.replicate (off - old.length) 0 ++ b ++ old.drop (off + b.length)

/-- The value of `os.ReadFile(name)`. -/
def readFileResult (env : Env) (fs : FS) (name : String) : Except GoError (List UInt8) :=
  match env.readFault with
  | some (op, err) => .error (.pathError op name err)
  | none =>
    match fs name with
    | none => .error (.pathError "open" name "no such file or directory")
    | some content => .ok content

/-- The call `os.ReadFile(name)`. -/
def ReadFile (env : Env) (name : String) : Go (Except GoError (List UInt8)) := fun fs =>
  ⟨.ret (readFileResult env fs name), fs, [.ReadFile name]⟩

/-- The call `pem.Decode(data)`, first result; nil is `none`. -/
def pemDecode (env : Env) (data : List UInt8) : Go (Option PemBlock) := fun fs =>
  ⟨.ret (env.pemDecode data), fs, [.pemDecode data]⟩

/-- The call `x509.ParseCertificate(der)`. -/
def ParseCertificate (env : Env) (der : List UInt8) : Go (Except GoError Certificate) :=
  fun fs => ⟨.ret (env.ParseCertificate der), fs, [.ParseCertificate der]⟩

/-- The call `os.OpenFile(name, flag, perm)`: a missing file is created when `O_CREATE`
is among the flags, an existing file keeps its content unless `O_TRUNC` is among them,
and the offset of the opened file is 0. -/
def OpenFile (env : Env) (name : String) (flag : List OFlag) (perm : Nat) :
    Go (Except GoError File) := fun fs =>
  match env.openFault with
  | some err => ⟨.ret (.error (.pathError "open" name err)), fs, [.OpenFile name flag perm]⟩
  | none =>
    match fs name with
    | none =>
      if OFlag.O_CREATE ∈ flag then
        ⟨.ret (.ok ⟨name, 0, OFlag.O_APPEND ∈ flag⟩), setFile fs name [],
          [.OpenFile name flag perm]⟩
      else
        ⟨.ret (.error (.pathError "open" name "no such file or directory")), fs,
          [.OpenFile name flag perm]⟩
    | some _ =>
      if OFlag.O_CREATE ∈ flag ∧ OFlag.O_EXCL ∈ flag then
        ⟨.ret (.error (.pathError "open" name "file exists")), fs, [.OpenFile name flag perm]⟩
      else
        ⟨.ret (.ok ⟨name, 0, OFlag.O_APPEND ∈ flag⟩),
          if OFlag.O_TRUNC ∈ flag then setFile fs name [] else fs,
          [.OpenFile name flag perm]⟩

/-- The call `fd.Write(b)`: the bytes go over the content of the file at the offset of
`fd` (at the end of the file with `O_APPEND`); the results are the number of bytes
written and the error. -/
def File.Write (env : Env) (fd : File) (b : List UInt8) : Go (Nat × Option GoError) :=
  fun fs =>
    let old := (fs fd.name).getD []
    let off := if fd.append then old.length else fd.offset
    match env.writeFault with
    | some (n, err) =>
      ⟨.ret ((b.take n).length, some (.pathError "write" fd.name err)),
        setFile fs fd.name (overwrite old off (b.take n)), [.Write fd.name b]⟩
    | none =>
      ⟨.ret (b.length, none), setFile fs fd.name (overwrite old off b), [.Write fd.name b]⟩

/-- The call `fd.Close()`. -/
def File.Close (fd : File) : Go Unit := emit (.Close fd.name)

/-- The call `fmt.Println(operands...)`: the operands, as text, with a space between two
of them. -/
def Println (operands : List (List UInt8)) : Go Unit :=
  emit (.Println (List.intercalate [32] operands))

/-! ## `main.go` -/

/-- The function `Run`. -/
def Run (env : Env) (options : opts) : Go (Option GoError) := do
  match ← ReadFile env options.CertificatePath with
  | .error err => return some (Errorf "failed to read certificate: " (some err))
  | .ok certPEM =>
    match ← pemDecode env certPEM with
    | none => return some (.new "error to decode PEM block containing certificate")
    | some block =>
      if block.Type_ ≠ "CERTIFICATE" then
        return some (.new "error to decode PEM block containing certificate")
      else
        match ← ParseCertificate env block.Bytes with
        | .error err => return some (Errorf "error parsing certificate: " (some err))
        | .ok cert =>
          match ← EncryptCMS env.ssl (bytesOf options.Message) (some cert) with
          | .error err => return some err
          | .ok encrypted =>
            if options.OutFile ≠ "" then
              match
                ← OpenFile env options.OutFile [OFlag.O_WRONLY, OFlag.O_CREATE] 0o644 with
              | .error err => return some err
              | .ok fd =>
                defer_ fd.Close do
                  let (_, err) ← fd.Write env encrypted
                  Println [bytesOf "Wrote CMS content to file:", bytesOf options.OutFile]
                  return err
            else
              Println [bytesOf "Encrypted using CMS:"]
              Println [encrypted]
              -- return err: the nil error of the call of EncryptCMS
              return none

/-- The function `main`, from the point where `flag.Parse` has filled `options`. -/
def main (env : Env) (options : opts) : Go Unit := do
  if options.CertificatePath = "" then
    Println [bytesOf "missing required argument: -cert"]
  else if options.Message = "" then
    Println [bytesOf "missing required argument: -message"]
  else
    match ← Run env options with
    | some err => Println [bytesOf "Error running the command:", bytesOf err.Error]
    | none => return

/-! ## Reading a trace -/

/-- The cgo calls in a trace. -/
def libCalls (t : List Event) : List Call :=
  t.filterMap fun e => match e with
    | .lib c => some c
    | _ => none

/-- The five steps of the CMS encryption sequence. -/
inductive CmsStep where
  /-- Step 1: create the envelope. -/
  | init
  /-- Step 2: convert the certificate to the library representation. -/
  | convert
  /-- Step 3: add the recipient. -/
  | addRecipient
  /-- Step 4: finalize with the content. -/
  | finalize
  /-- Step 5: serialize to PEM. -/
  | serialize
  deriving DecidableEq, Repr

/-- The step that a cgo call performs, if it is one of the five. -/
def stepOf : Call → Option CmsStep
  | .CMS_encrypt _ _ _ _ => some .init
  | .d2i_X509 _ _ _ => some .convert
  | .CMS_add1_recipient_cert _ _ _ => some .addRecipient
  | .CMS_final _ _ => some .finalize
  | .PEM_write_bio_CMS_stream _ _ => some .serialize
  | _ => none

/-- The steps performed in a trace, in order. -/
def stepsOf (t : List Event) : List CmsStep := (libCalls t).filterMap stepOf

/-- The fixed sequence of the five steps. -/
def cmsSequence : List CmsStep := [.init, .convert, .addRecipient, .finalize, .serialize]

/-- A native resource: what kind of object it is and where it lives. -/
inductive Handle where
  /-- A `CMS_ContentInfo`. -/
  | cms (a : Addr)
  /-- An `X509`. -/
  | x509 (a : Addr)
  /-- A buffer of the C heap. -/
  | mem (a : Addr)
  /-- A `BIO`. -/
  | bio (a : Addr)
  deriving DecidableEq, Repr

/-- The resource that a cgo call acquires: the allocating calls that returned non-NULL. -/
def acquired : Call → Option Handle
  | .CMS_encrypt _ _ _ (some a) => some (.cms a)
  | .CBytes _ a => some (.mem a)
  | .d2i_X509 _ _ (some a) => some (.x509 a)
  | .BIO_new_mem_buf _ (some a) => some (.bio a)
  | .BIO_new (some a) => some (.bio a)
  | _ => none

/-- The resource that a cgo call releases. -/
def released : Call → Option Handle
  | .CMS_ContentInfo_free a => some (.cms a)
  | .free a => some (.mem a)
  | .X509_free a => some (.x509 a)
  | .BIO_free a => some (.bio a)
  | _ => none

/-- The resources that are live after the calls `t`, starting from the live resources
`live`; `none` if a call releases a resource that is not live (never acquired, or
released before). -/
def ledger : List Call → List Handle → Option (List Handle)
  | [], live => some live
  | c :: t, live =>
    match released c with
    | some h => if h ∈ live then ledger t (live.erase h) else none
    | none =>
      match acquired c with
      | some h => ledger t (h :: live)
      | none => ledger t live

/-! ## The paths through `EncryptCMS` -/

/-- The value that `getOpenSSLError` returns. -/
def lastError (ssl : OpenSSL) : Option GoError :=
  if ssl.errGetError = 0 then none else some (.new (ssl.errErrorString ssl.errGetError))

/-- The cgo calls that `getOpenSSLError` makes. -/
def lastErrorCalls (ssl : OpenSSL) : List Call :=
  if ssl.errGetError = 0 then [.ERR_get_error]
  else [.ERR_get_error, .ERR_error_string ssl.errGetError]

/-- The recipient that `loadCert` accepts: non-nil and with a non-empty `Raw`. -/
def validRecipient (recipient : Option Certificate) : Option Certificate :=
  match recipient with
  | none => none
  | some cert => if cert.Raw.length = 0 then none else some cert

/-- The twelve ways a call of `EncryptCMS` can go, each with the answers of the library
that select it, the way the call ends and the cgo calls it makes.  `EncryptCMS_path`
proves that every call goes one of these ways. -/
inductive EncPath (ssl : OpenSSL) (data : List UInt8) (recipient : Option Certificate) :
    Outcome (Except GoError (List UInt8)) → List Call → Prop
  | initFailed :
      ssl.cmsEncrypt = none →
      EncPath ssl data recipient
        (.ret (.error (Errorf "CMS_encrypt failed: " (lastError ssl))))
        ([.EVP_aes_128_gcm, .CMS_encrypt none none (CMS_PARTIAL ||| CMS_BINARY) none]
          ++ lastErrorCalls ssl)
  | invalidCert (cms : Addr) :
      ssl.cmsEncrypt = some cms → validRecipient recipient = none →
      EncPath ssl data recipient
        (.ret (.error (.wrap "load cert: " (.new "invalid certificate input"))))
        [.EVP_aes_128_gcm, .CMS_encrypt none none (CMS_PARTIAL ||| CMS_BINARY) (some cms),
          .CMS_ContentInfo_free cms]
  | convertFailed (cms : Addr) (c : Certificate) :
      ssl.cmsEncrypt = some cms → validRecipient recipient = some c → ssl.d2iX509 = none →
      EncPath ssl data recipient
        (.ret (.error (.wrap "load cert: "
          (Errorf "error parsing DER certificate: " (lastError ssl)))))
        ([.EVP_aes_128_gcm, .CMS_encrypt none none (CMS_PARTIAL ||| CMS_BINARY) (some cms),
          .CBytes c.Raw ssl.cBytes, .d2i_X509 ssl.cBytes c.Raw.length none]
          ++ lastErrorCalls ssl ++ [.free ssl.cBytes, .CMS_ContentInfo_free cms])
  | addFailed (cms : Addr) (c : Certificate) (x : Addr) :
      ssl.cmsEncrypt = some cms → validRecipient recipient = some c → ssl.d2iX509 = some x →
      ssl.addRecipient = false →
      EncPath ssl data recipient
        (.ret (.error (Errorf "CMS_add1_recipient_cert failed: " (lastError ssl))))
        ([.EVP_aes_128_gcm, .CMS_encrypt none none (CMS_PARTIAL ||| CMS_BINARY) (some cms),
          .CBytes c.Raw ssl.cBytes, .d2i_X509 ssl.cBytes c.Raw.length (some x),
          .free ssl.cBytes, .CMS_add1_recipient_cert cms x 0]
          ++ lastErrorCalls ssl ++ [.X509_free x, .CMS_ContentInfo_free cms])
  | emptyData (cms : Addr) (c : Certificate) (x : Addr) :
      ssl.cmsEncrypt = some cms → validRecipient recipient = some c → ssl.d2iX509 = some x →
      ssl.addRecipient = true → data.length = 0 →
      EncPath ssl data recipient
        (.panic "runtime error: index out of range [0] with length 0")
        [.EVP_aes_128_gcm, .CMS_encrypt none none (CMS_PARTIAL ||| CMS_BINARY) (some cms),
          .CBytes c.Raw ssl.cBytes, .d2i_X509 ssl.cBytes c.Raw.length (some x),
          .free ssl.cBytes, .CMS_add1_recipient_cert cms x 0,
          .X509_free x, .CMS_ContentInfo_free cms]
  | inputBioFailed (cms : Addr) (c : Certificate) (x : Addr) :
      ssl.cmsEncrypt = some cms → validRecipient recipient = some c → ssl.d2iX509 = some x →
      ssl.addRecipient = true → data.length ≠ 0 → ssl.bioNewMemBuf = none →
      EncPath ssl data recipient
        (.ret (.error (.new "failed to create input BIO")))
        [.EVP_aes_128_gcm, .CMS_encrypt none none (CMS_PARTIAL ||| CMS_BINARY) (some cms),
          .CBytes c.Raw ssl.cBytes, .d2i_X509 ssl.cBytes c.Raw.length (some x),
          .free ssl.cBytes, .CMS_add1_recipient_cert cms x 0,
          .BIO_new_mem_buf (cInt data.length) none,
          .X509_free x, .CMS_ContentInfo_free cms]
  | finalFailed (cms : Addr) (c : Certificate) (x bi : Addr) :
      ssl.cmsEncrypt = some cms → validRecipient recipient = some c → ssl.d2iX509 = some x →
      ssl.addRecipient = true → data.length ≠ 0 → ssl.bioNewMemBuf = some bi →
      ssl.cmsFinal ≠ 1 →
      EncPath ssl data recipient
        (.ret (.error (Errorf "CMS_final failed: " (lastError ssl))))
        ([.EVP_aes_128_gcm, .CMS_encrypt none none (CMS_PARTIAL ||| CMS_BINARY) (some cms),
          .CBytes c.Raw ssl.cBytes, .d2i_X509 ssl.cBytes c.Raw.length (some x),
          .free ssl.cBytes, .CMS_add1_recipient_cert cms x 0,
          .BIO_new_mem_buf (cInt data.length) (some bi), .CMS_final cms bi]
          ++ lastErrorCalls ssl ++ [.BIO_free bi, .X509_free x, .CMS_ContentInfo_free cms])
  | outputBioFailed (cms : Addr) (c : Certificate) (x bi : Addr) :
      ssl.cmsEncrypt = some cms → validRecipient recipient = some c → ssl.d2iX509 = some x →
      ssl.addRecipient = true → data.length ≠ 0 → ssl.bioNewMemBuf = some bi →
      ssl.cmsFinal = 1 → ssl.bioNew = none →
      EncPath ssl data recipient
        (.ret (.error (.new "failed to create output BIO")))
        [.EVP_aes_128_gcm, .CMS_encrypt none none (CMS_PARTIAL ||| CMS_BINARY) (some cms),
          .CBytes c.Raw ssl.cBytes, .d2i_X509 ssl.cBytes c.Raw.length (some x),
          .free ssl.cBytes, .CMS_add1_recipient_cert cms x 0,
          .BIO_new_mem_buf (cInt data.length) (some bi), .CMS_final cms bi,
          .BIO_s_mem, .BIO_new none,
          .BIO_free bi, .X509_free x, .CMS_ContentInfo_free cms]
  | serializeFailed (cms : Addr) (c : Certificate) (x bi bo : Addr) :
      ssl.cmsEncrypt = some cms → validRecipient recipient = some c → ssl.d2iX509 = some x →
      ssl.addRecipient = true → data.length ≠ 0 → ssl.bioNewMemBuf = some bi →
      ssl.cmsFinal = 1 → ssl.bioNew = some bo → ssl.pemWrite ≠ 1 →
      EncPath ssl data recipient
        (.ret (.error (Errorf "i2d_CMS_bio_stream failed: " (lastError ssl))))
        ([.EVP_aes_128_gcm, .CMS_encrypt none none (CMS_PARTIAL ||| CMS_BINARY) (some cms),
          .CBytes c.Raw ssl.cBytes, .d2i_X509 ssl.cBytes c.Raw.length (some x),
          .free ssl.cBytes, .CMS_add1_recipient_cert cms x 0,
          .BIO_new_mem_buf (cInt data.length) (some bi), .CMS_final cms bi,
          .BIO_s_mem, .BIO_new (some bo), .PEM_write_bio_CMS_stream bo cms]
          ++ lastErrorCalls ssl
          ++ [.BIO_free bo, .BIO_free bi, .X509_free x, .CMS_ContentInfo_free cms])
  | noOutput (cms : Addr) (c : Certificate) (x bi bo : Addr) :
      ssl.cmsEncrypt = some cms → validRecipient recipient = some c → ssl.d2iX509 = some x →
      ssl.addRecipient = true → data.length ≠ 0 → ssl.bioNewMemBuf = some bi →
      ssl.cmsFinal = 1 → ssl.bioNew = some bo → ssl.pemWrite = 1 → ssl.memSize ≤ 0 →
      EncPath ssl data recipient
        (.ret (.error (.new "no output data")))
        [.EVP_aes_128_gcm, .CMS_encrypt none none (CMS_PARTIAL ||| CMS_BINARY) (some cms),
          .CBytes c.Raw ssl.cBytes, .d2i_X509 ssl.cBytes c.Raw.length (some x),
          .free ssl.cBytes, .CMS_add1_recipient_cert cms x 0,
          .BIO_new_mem_buf (cInt data.length) (some bi), .CMS_final cms bi,
          .BIO_s_mem, .BIO_new (some bo), .PEM_write_bio_CMS_stream bo cms,
          .MACRO_BIO_get_mem_data bo,
          .BIO_free bo, .BIO_free bi, .X509_free x, .CMS_ContentInfo_free cms]
  | copyPanics (cms : Addr) (c : Certificate) (x bi bo : Addr) :
      ssl.cmsEncrypt = some cms → validRecipient recipient = some c → ssl.d2iX509 = some x →
      ssl.addRecipient = true → data.length ≠ 0 → ssl.bioNewMemBuf = some bi →
      ssl.cmsFinal = 1 → ssl.bioNew = some bo → ssl.pemWrite = 1 → 0 < ssl.memSize →
      cInt ssl.memSize < 0 →
      EncPath ssl data recipient
        (.panic "runtime error: gobytes: length out of range")
        [.EVP_aes_128_gcm, .CMS_encrypt none none (CMS_PARTIAL ||| CMS_BINARY) (some cms),
          .CBytes c.Raw ssl.cBytes, .d2i_X509 ssl.cBytes c.Raw.length (some x),
          .free ssl.cBytes, .CMS_add1_recipient_cert cms x 0,
          .BIO_new_mem_buf (cInt data.length) (some bi), .CMS_final cms bi,
          .BIO_s_mem, .BIO_new (some bo), .PEM_write_bio_CMS_stream bo cms,
          .MACRO_BIO_get_mem_data bo, .GoBytes (cInt ssl.memSize),
          .BIO_free bo, .BIO_free bi, .X509_free x, .CMS_ContentInfo_free cms]
  | success (cms : Addr) (c : Certificate) (x bi bo : Addr) :
      ssl.cmsEncrypt = some cms → validRecipient recipient = some c → ssl.d2iX509 = some x →
      ssl.addRecipient = true → data.length ≠ 0 → ssl.bioNewMemBuf = some bi →
      ssl.cmsFinal = 1 → ssl.bioNew = some bo → ssl.pemWrite = 1 → 0 < ssl.memSize →
      0 ≤ cInt ssl.memSize →
      EncPath ssl data recipient
        (.ret (.ok (ssl.pemOutput.take (cInt ssl.memSize).toNat)))
        [.EVP_aes_128_gcm, .CMS_encrypt none none (CMS_PARTIAL ||| CMS_BINARY) (some cms),
          .CBytes c.Raw ssl.cBytes, .d2i_X509 ssl.cBytes c.Raw.length (some x),
          .free ssl.cBytes, .CMS_add1_recipient_cert cms x 0,
          .BIO_new_mem_buf (cInt data.length) (some bi), .CMS_final cms bi,
          .BIO_s_mem, .BIO_new (some bo), .PEM_write_bio_CMS_stream bo cms,
          .MACRO_BIO_get_mem_data bo, .GoBytes (cInt ssl.memSize),
          .BIO_free bo, .BIO_free bi, .X509_free x, .CMS_ContentInfo_free cms]

/-- The errors of the two checks of `EncryptCMS` that are not the failure of a library
call: the check of the certificate in `loadCert` and the check of the size in
`bytesFromBio`. -/
def checkErrors : List GoError :=
  [.wrap "load cert: " (.new "invalid certificate input"), .new "no output data"]

/-- The errors of `EncryptCMS` for a buffer that the library did not create. -/
def bufferErrors : List GoError :=
  [.new "failed to create input BIO", .new "failed to create output BIO"]

/-! ## The stages of `Run` -/

/-- The events of `Run` before the call of `EncryptCMS`. -/
def loadEvents (options : opts) (certPEM der : List UInt8) : List Event :=
  [.ReadFile options.CertificatePath, .pemDecode certPEM, .ParseCertificate der]

/-- The error of `Run` for a file that holds no PEM block with the label CERTIFICATE. -/
def formatError : GoError := .new "error to decode PEM block containing certificate"

/-- Whether `Run` accepts the result of `pem.Decode`: a block with the label CERTIFICATE. -/
def pemAccepted (block : Option PemBlock) : Option PemBlock :=
  match block with
  | none => none
  | some b => if b.Type_ ≠ "CERTIFICATE" then none else some b

/-! ## Concrete inputs -/

/-- A file system without files. -/
def fsEmpty : FS := fun _ => none

/-- A certificate with a one-byte `Raw`. -/
def certDemo : Certificate := ⟨[48]⟩

/-- Answers of the library with which every call succeeds: the five objects live at the
addresses 1 to 5, the output buffer holds the five bytes `-----`, and the error queue is
empty. -/
def sslOk : OpenSSL where
  cmsEncrypt := some 1
  cBytes := 2
  d2iX509 := some 3
  addRecipient := true
  bioNewMemBuf := some 4
  cmsFinal := 1
  bioNew := some 5
  pemWrite := 1
  memSize := 5
  pemOutput := [45, 45, 45, 45, 45]
  memValid := fun _ => rfl
  errGetError := 0
  errErrorString := fun _ => "error:0308010C:digital envelope routines::unsupported"

/-- As `sslOk`, with an earlier error left in the error queue of the library. -/
def sslStale : OpenSSL := { sslOk with errGetError := 50856204 }

/-- As `sslStale`, with a failing `d2i_X509`. -/
def sslConvertFails : OpenSSL := { sslStale with d2iX509 := none }

/-- As `sslStale`, with a failing `CMS_encrypt`. -/
def sslInitFails : OpenSSL := { sslStale with cmsEncrypt := none }

/-- As `sslOk`, with an output buffer of 2 ^ 32 bytes. -/
def sslHuge : OpenSSL :=
  { sslOk with
    memSize := 4294967296
    pemOutput := List.replicate 4294967296 45
    memValid := fun _ => by rw [List.length_replicate]; rfl }

/-- As `sslOk`, with an empty output buffer. -/
def sslNoOutput : OpenSSL :=
  { sslOk with memSize := 0, pemOutput := [], memValid := fun _ => rfl }

/-- A standard library that finds a certificate block in every file and parses it, and an
operating system without faults, around the library `sslOk`. -/
def envOk : Env where
  ssl := sslOk
  readFault := none
  pemDecode := fun _ => some ⟨"CERTIFICATE", [48]⟩
  ParseCertificate := fun der => .ok ⟨der⟩
  openFault := none
  writeFault := none

/-- As `envOk`, with a file that holds a private key. -/
def envPrivateKey : Env := { envOk with pemDecode := fun _ => some ⟨"PRIVATE KEY", [48]⟩ }

/-- As `envOk`, with an output file that cannot be opened. -/
def envOpenFails : Env := { envOk with openFault := some "permission denied" }

/-- As `envOk`, with a library that leaves the output buffer empty. -/
def envNoOutput : Env := { envOk with ssl := sslNoOutput }

/-- The options `-cert cert.pem -message hi -out out.pem`. -/
def optsDemo : opts := ⟨"cert.pem", "hi", "out.pem"⟩

/-- A file system with the certificate file and an output file of eight bytes. -/
def fsDemo : FS := fun name =>
  if name = "cert.pem" then some [45, 45]
  else if name = "out.pem" then some [65, 66, 67, 68, 69, 70, 71, 72]
  else none

/-! ## Lemmas on the functions of `encrypt.go` -/

/-- The cgo calls of a trace made of cgo calls only. -/
theorem libCalls_map_lib (cs : List Call) : libCalls (cs.map .lib) = cs := by
  induction cs with
  | nil => rfl
  | cons c cs ih => simpa [libCalls] using ih

/-- The conversion `C.int(n)` keeps a value that fits a signed 32-bit integer. -/
theorem cInt_of_fits {n : Int} (h0 : 0 ≤ n) (h1 : n < 2 ^ 31) : cInt n = n := by
  unfold cInt
  norm_num at h1 ⊢
  omega

/-- The function `getOpenSSLError` returns `lastError` and makes the calls `lastErrorCalls`. -/
theorem getOpenSSLError_eq (ssl : OpenSSL) (fs : FS) :
    getOpenSSLError ssl fs = ⟨.ret (lastError ssl), fs, (lastErrorCalls ssl).map .lib⟩ := by
  unfold getOpenSSLError lastError lastErrorCalls
  by_cases h : ssl.errGetError = 0 <;>
    simp [h, bind, pure, Go.bind, Go.pure, call, emit]

/-- The three ways `bytesFromBio` can go. -/
theorem bytesFromBio_eq (ssl : OpenSSL) (bios : Bios) (bio : Addr) (fs : FS) :
    bytesFromBio ssl bios bio fs =
      if ssl.memSize ≤ 0 then
        ⟨.ret (.error (.new "no output data")), fs, [.lib (.MACRO_BIO_get_mem_data bio)]⟩
      else if cInt ssl.memSize < 0 then
        ⟨.panic "runtime error: gobytes: length out of range", fs,
          [.lib (.MACRO_BIO_get_mem_data bio), .lib (.GoBytes (cInt ssl.memSize))]⟩
      else
        ⟨.ret (.ok ((bios bio).take (cInt ssl.memSize).toNat)), fs,
          [.lib (.MACRO_BIO_get_mem_data bio), .lib (.GoBytes (cInt ssl.memSize))]⟩ := by
  unfold bytesFromBio
  by_cases h : ssl.memSize ≤ 0
  · simp [h, bind, pure, Go.bind, Go.pure, call, emit]
  · by_cases h2 : cInt ssl.memSize < 0 <;>
      simp [h, h2, bind, pure, Go.bind, Go.pure, call, emit, Go.panic]

/-- The three ways `loadCert` can go. -/
theorem loadCert_eq (ssl : OpenSSL) (recipient : Option Certificate) (fs : FS) :
    loadCert ssl recipient fs =
      match validRecipient recipient with
      | none => ⟨.ret (.error (.new "invalid certificate input")), fs, []⟩
      | some c =>
        match ssl.d2iX509 with
        | none =>
          ⟨.ret (.error (Errorf "error parsing DER certificate: " (lastError ssl))), fs,
            ([Call.CBytes c.Raw ssl.cBytes, .d2i_X509 ssl.cBytes c.Raw.length none]
              ++ lastErrorCalls ssl ++ [Call.free ssl.cBytes]).map .lib⟩
        | some x =>
          ⟨.ret (.ok x), fs,
            [.lib (.CBytes c.Raw ssl.cBytes), .lib (.d2i_X509 ssl.cBytes c.Raw.length (some x)),
              .lib (.free ssl.cBytes)]⟩ := by
  unfold loadCert validRecipient
  cases recipient with
  | none => simp [pure, Go.pure]
  | some c =>
    by_cases hl : c.Raw.length = 0
    · simp [hl, pure, Go.pure]
    · cases hd : ssl.d2iX509 <;>
        simp [hl, hd, bind, pure, Go.bind, Go.pure, call, emit, defer_, getOpenSSLError_eq]

/-- A call of `EncryptCMS` that goes one of the twelve ways of `EncPath` ends and makes the
cgo calls as that way says, and leaves the file system as it was. -/
theorem EncryptCMS_of_path {ssl : OpenSSL} {data : List UInt8} {recipient : Option Certificate}
    {out : Outcome (Except GoError (List UInt8))} {calls : List Call}
    (hp : EncPath ssl data recipient out calls) (fs : FS) :
    EncryptCMS ssl data recipient fs = ⟨out, fs, calls.map .lib⟩ := by
  unfold EncryptCMS
  cases hp with
  | initFailed h1 =>
    simp [h1, bind, pure, Go.bind, Go.pure, call, emit, getOpenSSLError_eq]
  | invalidCert cms h1 h2 =>
    simp [h1, h2, bind, pure, Go.bind, Go.pure, call, emit, defer_, loadCert_eq, Errorf]
  | convertFailed cms c h1 h2 h3 =>
    simp [h1, h2, h3, bind, pure, Go.bind, Go.pure, call, emit, defer_, loadCert_eq, Errorf]
  | addFailed cms c x h1 h2 h3 h4 =>
    simp [h1, h2, h3, h4, bind, pure, Go.bind, Go.pure, call, emit, defer_, loadCert_eq,
      getOpenSSLError_eq]
  | emptyData cms c x h1 h2 h3 h4 h5 =>
    simp [h1, h2, h3, h4, h5, bind, pure, Go.bind, Go.pure, call, emit, defer_, loadCert_eq,
      Go.panic]
  | inputBioFailed cms c x h1 h2 h3 h4 h5 h6 =>
    simp [h1, h2, h3, h4, h5, h6, bind, pure, Go.bind, Go.pure, call, emit, defer_,
      loadCert_eq]
  | finalFailed cms c x bi h1 h2 h3 h4 h5 h6 h7 =>
    simp [h1, h2, h3, h4, h5, h6, h7, bind, pure, Go.bind, Go.pure, call, emit, defer_,
      loadCert_eq, getOpenSSLError_eq]
  | outputBioFailed cms c x bi h1 h2 h3 h4 h5 h6 h7 h8 =>
    simp [h1, h2, h3, h4, h5, h6, h7, h8, bind, pure, Go.bind, Go.pure, call, emit, defer_,
      loadCert_eq]
  | serializeFailed cms c x bi bo h1 h2 h3 h4 h5 h6 h7 h8 h9 =>
    simp [h1, h2, h3, h4, h5, h6, h7, h8, h9, bind, pure, Go.bind, Go.pure, call, emit,
      defer_, loadCert_eq, getOpenSSLError_eq]
  | noOutput cms c x bi bo h1 h2 h3 h4 h5 h6 h7 h8 h9 h10 =>
    simp [h1, h2, h3, h4, h5, h6, h7, h8, h9, h10, bind, pure, Go.bind, Go.pure, call, emit,
      defer_, loadCert_eq, bytesFromBio_eq, Bios.write]
  | copyPanics cms c x bi bo h1 h2 h3 h4 h5 h6 h7 h8 h9 h10 h11 =>
    simp [h1, h2, h3, h4, h5, h6, h7, h8, h9, not_le.mpr h10, h11, bind, pure, Go.bind,
      Go.pure, call, emit, defer_, loadCert_eq, bytesFromBio_eq, Bios.write]
  | success cms c x bi bo h1 h2 h3 h4 h5 h6 h7 h8 h9 h10 h11 =>
    simp [h1, h2, h3, h4, h5, h6, h7, h8, h9, not_le.mpr h10, not_lt.mpr h11, bind, pure,
      Go.bind, Go.pure, call, emit, defer_, loadCert_eq, bytesFromBio_eq, Bios.write]

/-- The answers of the library select one of the twelve ways of `EncPath`. -/
theorem EncPath_exists (ssl : OpenSSL) (data : List UInt8) (recipient : Option Certificate) :
    ∃ out calls, EncPath ssl data recipient out calls := by
  cases h1 : ssl.cmsEncrypt with
  | none => exact ⟨_, _, .initFailed h1⟩
  | some cms =>
  cases h2 : validRecipient recipient with
  | none => exact ⟨_, _, .invalidCert cms h1 h2⟩
  | some c =>
  cases h3 : ssl.d2iX509 with
  | none => exact ⟨_, _, .convertFailed cms c h1 h2 h3⟩
  | some x =>
  cases h4 : ssl.addRecipient with
  | false => exact ⟨_, _, .addFailed cms c x h1 h2 h3 h4⟩
  | true =>
  by_cases h5 : data.length = 0
  · exact ⟨_, _, .emptyData cms c x h1 h2 h3 h4 h5⟩
  cases h6 : ssl.bioNewMemBuf with
  | none => exact ⟨_, _, .inputBioFailed cms c x h1 h2 h3 h4 h5 h6⟩
  | some bi =>
  by_cases h7 : ssl.cmsFinal = 1
  swap
  · exact ⟨_, _, .finalFailed cms c x bi h1 h2 h3 h4 h5 h6 h7⟩
  cases h8 : ssl.bioNew with
  | none => exact ⟨_, _, .outputBioFailed cms c x bi h1 h2 h3 h4 h5 h6 h7 h8⟩
  | some bo =>
  by_cases h9 : ssl.pemWrite = 1
  swap
  · exact ⟨_, _, .serializeFailed cms c x bi bo h1 h2 h3 h4 h5 h6 h7 h8 h9⟩
  by_cases h10 : ssl.memSize ≤ 0
  · exact ⟨_, _, .noOutput cms c x bi bo h1 h2 h3 h4 h5 h6 h7 h8 h9 h10⟩
  by_cases h11 : cInt ssl.memSize < 0
  · exact ⟨_, _, .copyPanics cms c x bi bo h1 h2 h3 h4 h5 h6 h7 h8 h9 (not_le.mp h10) h11⟩
  · exact ⟨_, _, .success cms c x bi bo h1 h2 h3 h4 h5 h6 h7 h8 h9 (not_le.mp h10)
      (not_lt.mp h11)⟩

/-- Every call of `EncryptCMS` goes one of the twelve ways of `EncPath`, leaves the file
system as it was and makes cgo calls only. -/
theorem EncryptCMS_path (ssl : OpenSSL) (data : List UInt8) (recipient : Option Certificate)
    (fs : FS) :
    ∃ out calls, EncryptCMS ssl data recipient fs = ⟨out, fs, calls.map .lib⟩ ∧
      EncPath ssl data recipient out calls := by
  obtain ⟨out, calls, hp⟩ := EncPath_exists ssl data recipient
  exact ⟨out, calls, EncryptCMS_of_path hp fs, hp⟩

/-! ## Lemmas on the functions of `main.go` -/

/-- The conversion `[]byte(s)` of a non-empty string is not empty. -/
theorem bytesOf_ne_nil {s : String} (h : s ≠ "") : bytesOf s ≠ [] := by
  obtain ⟨cs⟩ := s
  cases cs with
  | nil => exact absurd rfl h
  | cons c cs =>
    intro hnil
    have hl := congrArg List.length hnil
    have hpos := Char.utf8Size_pos c
    simp [bytesOf, String.toUTF8, String.length_utf8EncodeChar] at hl
    omega

/-- A call of `EncryptCMS` leaves the file system as it was. -/
theorem EncryptCMS_fs (ssl : OpenSSL) (data : List UInt8) (recipient : Option Certificate)
    (fs : FS) : (EncryptCMS ssl data recipient fs).fs = fs := by
  obtain ⟨out, calls, heq, -⟩ := EncryptCMS_path ssl data recipient fs
  rw [heq]

/-- The index expression of `EncryptCMS` panics only for an empty message. -/
theorem EncryptCMS_index_panic {ssl : OpenSSL} {data : List UInt8}
    {recipient : Option Certificate} {fs : FS}
    (h : (EncryptCMS ssl data recipient fs).out =
      .panic "runtime error: index out of range [0] with length 0") : data.length = 0 := by
  obtain ⟨out, calls, heq, hp⟩ := EncryptCMS_path ssl data recipient fs
  rw [heq] at h
  cases hp <;> simp at h
  assumption

/-- The error that `EncryptCMS` returns is never the format error of `Run`. -/
theorem EncryptCMS_ne_formatError {ssl : OpenSSL} {data : List UInt8}
    {recipient : Option Certificate} {fs : FS} :
    (EncryptCMS ssl data recipient fs).out ≠ .ret (.error formatError) := by
  obtain ⟨out, calls, heq, hp⟩ := EncryptCMS_path ssl data recipient fs
  rw [heq]
  cases hp <;> simp [formatError, Errorf] <;> split <;> simp

/-- A run that cannot read the certificate file. -/
theorem Run_read_failed {env : Env} {options : opts} {fs : FS} {err : GoError}
    (h : readFileResult env fs options.CertificatePath = .error err) :
    Run env options fs =
      ⟨.ret (some (.wrap "failed to read certificate: " err)), fs,
        [.ReadFile options.CertificatePath]⟩ := by
  simp [Run, ReadFile, h, bind, pure, Go.bind, Go.pure, Errorf]

/-- A run on a file without a certificate block. -/
theorem Run_pem_failed {env : Env} {options : opts} {fs : FS} {certPEM : List UInt8}
    (h : readFileResult env fs options.CertificatePath = .ok certPEM)
    (hpem : pemAccepted (env.pemDecode certPEM) = none) :
    Run env options fs =
      ⟨.ret (some formatError), fs, [.ReadFile options.CertificatePath, .pemDecode certPEM]⟩ := by
  unfold pemAccepted at hpem
  cases hb : env.pemDecode certPEM with
  | none => simp [Run, ReadFile, pemDecode, h, hb, bind, pure, Go.bind, Go.pure, formatError]
  | some b =>
    have ht : b.Type_ ≠ "CERTIFICATE" := by
      intro ht
      simp [hb, ht] at hpem
    simp [Run, ReadFile, pemDecode, h, hb, ht, bind, pure, Go.bind, Go.pure, formatError]

/-- A run on a certificate block that does not parse. -/
theorem Run_parse_failed {env : Env} {options : opts} {fs : FS} {certPEM : List UInt8}
    {block : PemBlock} {err : GoError}
    (h : readFileResult env fs options.CertificatePath = .ok certPEM)
    (hpem : pemAccepted (env.pemDecode certPEM) = some block)
    (hparse : env.ParseCertificate block.Bytes = .error err) :
    Run env options fs =
      ⟨.ret (some (.wrap "error parsing certificate: " err)), fs,
        loadEvents options certPEM block.Bytes⟩ := by
  unfold pemAccepted at hpem
  cases hb : env.pemDecode certPEM with
  | none => simp [hb] at hpem
  | some b =>
    by_cases ht : b.Type_ = "CERTIFICATE"
    · simp [hb, ht] at hpem
      subst hpem
      simp [Run, ReadFile, pemDecode, ParseCertificate, h, hb, ht, hparse, bind, pure, Go.bind,
        Go.pure, Errorf, loadEvents]
    · simp [hb, ht] at hpem

/-- The text of `fmt.Println` with one operand. -/
theorem intercalate_one (a : List UInt8) : List.intercalate [32] [a] = a := by
  simp [List.intercalate]

/-- The text of `fmt.Println` with two operands. -/
theorem intercalate_two (a b : List UInt8) : List.intercalate [32] [a, b] = a ++ 32 :: b := by
  simp [List.intercalate]

/-- Bytes written at offset 0 replace the beginning of the old content and leave what
lies beyond them. -/
theorem overwrite_zero (old b : List UInt8) : overwrite old 0 b = b ++ old.drop b.length := by
  simp [overwrite]

/-- The content of a file that was set. -/
theorem setFile_same (fs : FS) (name : String) (a : List UInt8) :
    setFile fs name a name = some a := by
  simp [setFile]

/-- The content of a file that is set twice is the content that was set last. -/
theorem setFile_setFile (fs : FS) (name : String) (a b : List UInt8) :
    setFile (setFile fs name a) name b = setFile fs name b := by
  funext n
  unfold setFile
  split <;> rfl

/-- A run whose call of `EncryptCMS` panics. -/
theorem Run_encrypt_panics {env : Env} {options : opts} {fs : FS} {certPEM : List UInt8}
    {block : PemBlock} {cert : Certificate} {msg : String}
    (h : readFileResult env fs options.CertificatePath = .ok certPEM)
    (hpem : pemAccepted (env.pemDecode certPEM) = some block)
    (hparse : env.ParseCertificate block.Bytes = .ok cert)
    (henc : (EncryptCMS env.ssl (bytesOf options.Message) (some cert) fs).out = .panic msg) :
    Run env options fs =
      ⟨.panic msg, fs, loadEvents options certPEM block.Bytes ++
        (EncryptCMS env.ssl (bytesOf options.Message) (some cert) fs).trace⟩ := by
  unfold pemAccepted at hpem
  cases hb : env.pemDecode certPEM with
  | none => simp [hb] at hpem
  | some b =>
    by_cases ht : b.Type_ = "CERTIFICATE"
    · simp [hb, ht] at hpem
      subst hpem
      simp [Run, ReadFile, pemDecode, ParseCertificate, h, hb, ht, hparse, henc, bind, pure,
        Go.bind, Go.pure, loadEvents, EncryptCMS_fs]
    · simp [hb, ht] at hpem

/-- A run whose call of `EncryptCMS` returns an error. -/
theorem Run_encrypt_failed {env : Env} {options : opts} {fs : FS} {certPEM : List UInt8}
    {block : PemBlock} {cert : Certificate} {err : GoError}
    (h : readFileResult env fs options.CertificatePath = .ok certPEM)
    (hpem : pemAccepted (env.pemDecode certPEM) = some block)
    (hparse : env.ParseCertificate block.Bytes = .ok cert)
    (henc : (EncryptCMS env.ssl (bytesOf options.Message) (some cert) fs).out =
      .ret (.error err)) :
    Run env options fs =
      ⟨.ret (some err), fs, loadEvents options certPEM block.Bytes ++
        (EncryptCMS env.ssl (bytesOf options.Message) (some cert) fs).trace⟩ := by
  unfold pemAccepted at hpem
  cases hb : env.pemDecode certPEM with
  | none => simp [hb] at hpem
  | some b =>
    by_cases ht : b.Type_ = "CERTIFICATE"
    · simp [hb, ht] at hpem
      subst hpem
      simp [Run, ReadFile, pemDecode, ParseCertificate, h, hb, ht, hparse, henc, bind, pure,
        Go.bind, Go.pure, loadEvents, EncryptCMS_fs]
    · simp [hb, ht] at hpem

/-- A successful run without an output file. -/
theorem Run_printed {env : Env} {options : opts} {fs : FS} {certPEM : List UInt8}
    {block : PemBlock} {cert : Certificate} {encrypted : List UInt8}
    (h : readFileResult env fs options.CertificatePath = .ok certPEM)
    (hpem : pemAccepted (env.pemDecode certPEM) = some block)
    (hparse : env.ParseCertificate block.Bytes = .ok cert)
    (henc : (EncryptCMS env.ssl (bytesOf options.Message) (some cert) fs).out =
      .ret (.ok encrypted))
    (hout : options.OutFile = "") :
    Run env options fs =
      ⟨.ret none, fs, loadEvents options certPEM block.Bytes ++
        (EncryptCMS env.ssl (bytesOf options.Message) (some cert) fs).trace ++
        [.Println (bytesOf "Encrypted using CMS:"), .Println encrypted]⟩ := by
  unfold pemAccepted at hpem
  cases hb : env.pemDecode certPEM with
  | none => simp [hb] at hpem
  | some b =>
    by_cases ht : b.Type_ = "CERTIFICATE"
    · simp [hb, ht] at hpem
      subst hpem
      simp [Run, ReadFile, pemDecode, ParseCertificate, Println, emit, h, hb, ht, hparse, henc,
        hout, bind, pure, Go.bind, Go.pure, loadEvents, EncryptCMS_fs, intercalate_one]
    · simp [hb, ht] at hpem

/-- A run that cannot open the output file. -/
theorem Run_open_failed {env : Env} {options : opts} {fs : FS} {certPEM : List UInt8}
    {block : PemBlock} {cert : Certificate} {encrypted : List UInt8} {errno : String}
    (h : readFileResult env fs options.CertificatePath = .ok certPEM)
    (hpem : pemAccepted (env.pemDecode certPEM) = some block)
    (hparse : env.ParseCertificate block.Bytes = .ok cert)
    (henc : (EncryptCMS env.ssl (bytesOf options.Message) (some cert) fs).out =
      .ret (.ok encrypted))
    (hout : options.OutFile ≠ "") (hopen : env.openFault = some errno) :
    Run env options fs =
      ⟨.ret (some (.pathError "open" options.OutFile errno)), fs,
        loadEvents options certPEM block.Bytes ++
        (EncryptCMS env.ssl (bytesOf options.Message) (some cert) fs).trace ++
        [.OpenFile options.OutFile [.O_WRONLY, .O_CREATE] 0o644]⟩ := by
  unfold pemAccepted at hpem
  cases hb : env.pemDecode certPEM with
  | none => simp [hb] at hpem
  | some b =>
    by_cases ht : b.Type_ = "CERTIFICATE"
    · simp [hb, ht] at hpem
      subst hpem
      simp [Run, ReadFile, pemDecode, ParseCertificate, OpenFile, h, hb, ht, hparse, henc,
        hout, hopen, bind, pure, Go.bind, Go.pure, loadEvents, EncryptCMS_fs]
    · simp [hb, ht] at hpem

/-- A run that opens the output file and writes to it: the bytes that `fd.Write` writes go
over the beginning of what the file held, the confirmation line is printed whether the
write failed or not, and the error of the write is the error of the run. -/
theorem Run_written {env : Env} {options : opts} {fs : FS} {certPEM : List UInt8}
    {block : PemBlock} {cert : Certificate} {encrypted : List UInt8}
    (h : readFileResult env fs options.CertificatePath = .ok certPEM)
    (hpem : pemAccepted (env.pemDecode certPEM) = some block)
    (hparse : env.ParseCertificate block.Bytes = .ok cert)
    (henc : (EncryptCMS env.ssl (bytesOf options.Message) (some cert) fs).out =
      .ret (.ok encrypted))
    (hout : options.OutFile ≠ "") (hopen : env.openFault = none) :
    Run env options fs =
      ⟨.ret (env.writeFault.map fun f => .pathError "write" options.OutFile f.2),
        setFile fs options.OutFile
          (match env.writeFault with
            | some (n, _) => encrypted.take n ++
                ((fs options.OutFile).getD []).drop (encrypted.take n).length
            | none => encrypted ++ ((fs options.OutFile).getD []).drop encrypted.length),
        loadEvents options certPEM block.Bytes ++
        (EncryptCMS env.ssl (bytesOf options.Message) (some cert) fs).trace ++
        [.OpenFile options.OutFile [.O_WRONLY, .O_CREATE] 0o644,
          .Write options.OutFile encrypted,
          .Println (bytesOf "Wrote CMS content to file:" ++ 32 :: bytesOf options.OutFile),
          .Close options.OutFile]⟩ := by
  unfold pemAccepted at hpem
  cases hb : env.pemDecode certPEM with
  | none => simp [hb] at hpem
  | some b =>
    by_cases ht : b.Type_ = "CERTIFICATE"
    · simp [hb, ht] at hpem
      subst hpem
      cases hw : env.writeFault with
      | none =>
        cases hf : fs options.OutFile <;>
          simp [Run, ReadFile, pemDecode, ParseCertificate, OpenFile, File.Write, File.Close,
            Println, emit, defer_, h, hb, ht, hparse, henc, hout, hopen, hw, hf, bind, pure,
            Go.bind, Go.pure, loadEvents, EncryptCMS_fs, overwrite_zero, setFile_setFile, setFile_same,
            intercalate_two]
      | some f =>
        obtain ⟨n, errno⟩ := f
        cases hf : fs options.OutFile <;>
          simp [Run, ReadFile, pemDecode, ParseCertificate, OpenFile, File.Write, File.Close,
            Println, emit, defer_, h, hb, ht, hparse, henc, hout, hopen, hw, hf, bind, pure,
            Go.bind, Go.pure, loadEvents, EncryptCMS_fs, overwrite_zero, setFile_setFile, setFile_same,
            intercalate_two]
    · simp [hb, ht] at hpem

/-- The result of `pem.Decode` that `Run` refuses: no block, or a block with another
label. -/
theorem pemAccepted_eq_none_iff (block : Option PemBlock) :
    pemAccepted block = none ↔
      (block = none ∨ ∃ b, block = some b ∧ b.Type_ ≠ "CERTIFICATE") := by
  unfold pemAccepted
  cases block with
  | none => simp
  | some b => by_cases ht : b.Type_ = "CERTIFICATE" <;> simp [ht]

/-- The first event of `Run` is the reading of the certificate file. -/
theorem Run_trace_head (env : Env) (options : opts) (fs : FS) :
    ∃ t, (Run env options fs).trace = .ReadFile options.CertificatePath :: t := by
  simp only [Run, bind, Go.bind, ReadFile]
  split <;> exact ⟨_, rfl⟩

/-- The five outcomes of a run whose certificate was loaded. -/
theorem Run_after_load {env : Env} {options : opts} {fs : FS} {certPEM : List UInt8}
    {block : PemBlock} {cert : Certificate}
    (h : readFileResult env fs options.CertificatePath = .ok certPEM)
    (hpem : pemAccepted (env.pemDecode certPEM) = some block)
    (hparse : env.ParseCertificate block.Bytes = .ok cert) :
    (∃ msg, (EncryptCMS env.ssl (bytesOf options.Message) (some cert) fs).out = .panic msg ∧
      (Run env options fs).out = .panic msg) ∨
    (∃ err, (EncryptCMS env.ssl (bytesOf options.Message) (some cert) fs).out =
        .ret (.error err) ∧ (Run env options fs).out = .ret (some err)) ∨
    (Run env options fs).out = .ret none ∨
    (∃ op errno, (Run env options fs).out =
      .ret (some (.pathError op options.OutFile errno))) := by
  cases henc : (EncryptCMS env.ssl (bytesOf options.Message) (some cert) fs).out with
  | panic msg => exact .inl ⟨msg, rfl, by rw [Run_encrypt_panics h hpem hparse henc]⟩
  | ret r =>
    cases r with
    | error err => exact .inr (.inl ⟨err, rfl, by rw [Run_encrypt_failed h hpem hparse henc]⟩)
    | ok encrypted =>
      by_cases hout : options.OutFile = ""
      · exact .inr (.inr (.inl (by rw [Run_printed h hpem hparse henc hout])))
      · cases hopen : env.openFault with
        | some errno =>
          exact .inr (.inr (.inr ⟨_, errno, by rw [Run_open_failed h hpem hparse henc hout hopen]⟩))
        | none =>
          rw [Run_written h hpem hparse henc hout hopen]
          cases env.writeFault with
          | none => exact .inr (.inr (.inl rfl))
          | some f => exact .inr (.inr (.inr ⟨_, f.2, rfl⟩))

/-- The run of `main` when both required arguments are given: the events of `Run`, then
the line with the error if `Run` returned one. -/
theorem main_runs (env : Env) {options : opts} (fs : FS)
    (hcert : options.CertificatePath ≠ "") (hmsg : options.Message ≠ "") :
    (main env options fs).fs = (Run env options fs).fs ∧
    (main env options fs).trace = (Run env options fs).trace ++
      (match (Run env options fs).out with
        | .ret (some err) =>
          [.Println (bytesOf "Error running the command:" ++ 32 :: bytesOf err.Error)]
        | _ => []) ∧
    (∀ msg, (main env options fs).out = .panic msg → (Run env options fs).out = .panic msg) := by
  simp only [main, hcert, hmsg, if_false, bind, Go.bind]
  cases hr : (Run env options fs).out with
  | panic msg => simp
  | ret r =>
    cases r with
    | none => simp [pure, Go.pure]
    | some err => simp [Println, emit, intercalate_two]

/-- A panic of `Run` is a panic of its call of `EncryptCMS`, on the message of the options. -/
theorem Run_panic {env : Env} {options : opts} {fs : FS} {msg : String}
    (h : (Run env options fs).out = .panic msg) :
    ∃ cert, (EncryptCMS env.ssl (bytesOf options.Message) (some cert) fs).out = .panic msg := by
  cases hread : readFileResult env fs options.CertificatePath with
  | error err => rw [Run_read_failed hread] at h; simp at h
  | ok certPEM =>
    cases hpem : pemAccepted (env.pemDecode certPEM) with
    | none => rw [Run_pem_failed hread hpem] at h; simp at h
    | some block =>
      cases hparse : env.ParseCertificate block.Bytes with
      | error err => rw [Run_parse_failed hread hpem hparse] at h; simp at h
      | ok cert =>
        rcases Run_after_load hread hpem hparse with
          ⟨m, henc, h2⟩ | ⟨err, -, h2⟩ | h2 | ⟨op, errno, h2⟩ <;> rw [h2] at h <;>
          simp at h
        exact ⟨cert, h ▸ henc⟩

/-! ## Claims on `EncryptCMS` -/

/-- C1: the steps that a call of `EncryptCMS` performs are a beginning of the fixed
sequence create, convert, add recipient, finalize, serialize; a step is performed only if
the steps before it succeeded; and a call that returns success performed the five steps,
once each, on one envelope: created with no recipients, no content and the flags
`CMS_PARTIAL` and `CMS_BINARY`, given the converted certificate as its recipient before
it is finalized, finalized once, on the input buffer made from the message, and then
serialized.  The steps are read off the calls `CMS_encrypt`, `d2i_X509`,
`CMS_add1_recipient_cert`, `CMS_final` and `PEM_write_bio_CMS_stream`. -/
theorem EncryptCMS_sequence (ssl : OpenSSL) (data : List UInt8) (recipient : Option Certificate)
    (fs : FS) :
    stepsOf (EncryptCMS ssl data recipient fs).trace <+: cmsSequence ∧
    (CmsStep.convert ∈ stepsOf (EncryptCMS ssl data recipient fs).trace →
      ssl.cmsEncrypt ≠ none) ∧
    (CmsStep.addRecipient ∈ stepsOf (EncryptCMS ssl data recipient fs).trace →
      validRecipient recipient ≠ none ∧ ssl.d2iX509 ≠ none) ∧
    (CmsStep.finalize ∈ stepsOf (EncryptCMS ssl data recipient fs).trace →
      ssl.addRecipient = true) ∧
    (CmsStep.serialize ∈ stepsOf (EncryptCMS ssl data recipient fs).trace →
      ssl.cmsFinal = 1) ∧
    (∀ bytes, (EncryptCMS ssl data recipient fs).out = .ret (.ok bytes) →
      stepsOf (EncryptCMS ssl data recipient fs).trace = cmsSequence ∧
      ∃ (cms x bi bo : Addr) (c : Certificate),
        ssl.cmsEncrypt = some cms ∧ validRecipient recipient = some c ∧
        ssl.d2iX509 = some x ∧ ssl.bioNewMemBuf = some bi ∧ ssl.bioNew = some bo ∧
        (libCalls (EncryptCMS ssl data recipient fs).trace).filter
            (fun call => (stepOf call).isSome) =
          [.CMS_encrypt none none (CMS_PARTIAL ||| CMS_BINARY) (some cms),
            .d2i_X509 ssl.cBytes c.Raw.length (some x),
            .CMS_add1_recipient_cert cms x 0,
            .CMS_final cms bi,
            .PEM_write_bio_CMS_stream bo cms] ∧
        Call.BIO_new_mem_buf (cInt data.length) (some bi) ∈
          libCalls (EncryptCMS ssl data recipient fs).trace) := by
  obtain ⟨out, calls, heq, hp⟩ := EncryptCMS_path ssl data recipient fs
  rw [heq]
  simp only [stepsOf, libCalls_map_lib]
  cases hp with
  | success cms c x bi bo h1 h2 h3 h4 h5 h6 h7 h8 h9 h10 h11 =>
    refine ⟨?_, ?_, ?_, ?_, ?_, fun _ _ => ⟨?_, cms, x, bi, bo, c, h1, h2, h3, h6, h8, ?_, ?_⟩⟩
    all_goals simp_all [cmsSequence, stepOf]
  | _ =>
    try unfold lastErrorCalls
    (try split_ifs) <;> simp_all [cmsSequence, stepOf, List.prefix_iff_eq_take]

/-- C1, witness: a call in which every library call succeeds performs the five steps. -/
theorem EncryptCMS_sequence_witness :
    (EncryptCMS sslOk [104, 105] (some certDemo) fsEmpty).out =
      .ret (.ok [45, 45, 45, 45, 45]) ∧
    stepsOf (EncryptCMS sslOk [104, 105] (some certDemo) fsEmpty).trace = cmsSequence :=
  ⟨rfl, ((EncryptCMS_sequence sslOk [104, 105] (some certDemo) fsEmpty).2.2.2.2.2 _ rfl).1⟩

/-- C3: on every way out of `EncryptCMS` (success, error, panic) the cgo calls of the call
release every native resource they acquired, each once, and release nothing that is not
live: the ledger of the calls, started with no live resource, ends with none. -/
theorem EncryptCMS_releases (ssl : OpenSSL) (data : List UInt8)
    (recipient : Option Certificate) (fs : FS) :
    ledger (libCalls (EncryptCMS ssl data recipient fs).trace) [] = some [] := by
  obtain ⟨out, calls, heq, hp⟩ := EncryptCMS_path ssl data recipient fs
  rw [heq]
  simp only [libCalls_map_lib]
  cases hp <;> (try unfold lastErrorCalls) <;> (try split_ifs) <;>
    simp [ledger, released, acquired]

/-- C9, at the failing input: with an empty message, a valid certificate and a library
whose calls succeed, `EncryptCMS` does not return: the index expression `data[0]` panics,
after the recipient was added. -/
theorem EncryptCMS_empty_message_panics :
    (EncryptCMS sslOk [] (some certDemo) fsEmpty).out =
      .panic "runtime error: index out of range [0] with length 0" ∧
    libCalls (EncryptCMS sslOk [] (some certDemo) fsEmpty).trace =
      [.EVP_aes_128_gcm, .CMS_encrypt none none (CMS_PARTIAL ||| CMS_BINARY) (some 1),
        .CBytes [48] 2, .d2i_X509 2 1 (some 3), .free 2, .CMS_add1_recipient_cert 1 3 0,
        .X509_free 3, .CMS_ContentInfo_free 1] := by
  constructor <;> rfl

/-- C6, counterexample: with a nil certificate and an error in the queue of the library,
`EncryptCMS` returns an error whose message does not contain the error string of the
library. -/
theorem EncryptCMS_error_without_library_string :
    (EncryptCMS sslStale [104, 105] none fsEmpty).out =
      .ret (.error (.wrap "load cert: " (.new "invalid certificate input"))) ∧
    sslStale.errErrorString sslStale.errGetError =
      "error:0308010C:digital envelope routines::unsupported" ∧
    ¬ ("error:0308010C:digital envelope routines::unsupported".data <:+:
      (GoError.wrap "load cert: " (.new "invalid certificate input")).Error.data) := by
  refine ⟨rfl, rfl, ?_⟩
  decide

/-- C6, as amended: while the error queue of the library is not empty, with `lib` the
error string of the library: when the library call of a step fails (`CMS_encrypt`,
`d2i_X509`, `CMS_add1_recipient_cert`, `CMS_final`, `PEM_write_bio_CMS_stream`),
`EncryptCMS` returns the error whose message is the context of that step followed by
`lib`; when the certificate is nil or empty it returns the fixed error "load cert: invalid
certificate input", and when the output buffer reports a size of zero or less the fixed
error "no output data"; and every error it returns other than these two and the two
errors of a buffer that the library did not create has a message that contains `lib`. -/
theorem EncryptCMS_library_error (ssl : OpenSSL) (data : List UInt8)
    (recipient : Option Certificate) (fs : FS) (lib : String)
    (hqueue : ssl.errGetError ≠ 0) (hlib : lib = ssl.errErrorString ssl.errGetError) :
    (ssl.cmsEncrypt = none →
      (EncryptCMS ssl data recipient fs).out =
        .ret (.error (.wrap "CMS_encrypt failed: " (.new lib)))) ∧
    (∀ cms, ssl.cmsEncrypt = some cms →
      (validRecipient recipient = none →
        (EncryptCMS ssl data recipient fs).out =
          .ret (.error (.wrap "load cert: " (.new "invalid certificate input")))) ∧
      (∀ c, validRecipient recipient = some c →
        (ssl.d2iX509 = none →
          (EncryptCMS ssl data recipient fs).out =
            .ret (.error (.wrap "load cert: "
              (.wrap "error parsing DER certificate: " (.new lib))))) ∧
        (∀ x, ssl.d2iX509 = some x →
          (ssl.addRecipient = false →
            (EncryptCMS ssl data recipient fs).out =
              .ret (.error (.wrap "CMS_add1_recipient_cert failed: " (.new lib)))) ∧
          (ssl.addRecipient = true → data.length ≠ 0 →
            ∀ bi, ssl.bioNewMemBuf = some bi →
              (ssl.cmsFinal ≠ 1 →
                (EncryptCMS ssl data recipient fs).out =
                  .ret (.error (.wrap "CMS_final failed: " (.new lib)))) ∧
              (ssl.cmsFinal = 1 → ∀ bo, ssl.bioNew = some bo →
                (ssl.pemWrite ≠ 1 →
                  (EncryptCMS ssl data recipient fs).out =
                    .ret (.error (.wrap "i2d_CMS_bio_stream failed: " (.new lib)))) ∧
                (ssl.pemWrite = 1 → ssl.memSize ≤ 0 →
                  (EncryptCMS ssl data recipient fs).out =
                    .ret (.error (.new "no output data")))))))) ∧
    (GoError.wrap "CMS_encrypt failed: " (.new lib)).Error = "CMS_encrypt failed: " ++ lib ∧
    (GoError.wrap "load cert: " (.wrap "error parsing DER certificate: " (.new lib))).Error =
      "load cert: error parsing DER certificate: " ++ lib ∧
    (GoError.wrap "CMS_add1_recipient_cert failed: " (.new lib)).Error =
      "CMS_add1_recipient_cert failed: " ++ lib ∧
    (GoError.wrap "CMS_final failed: " (.new lib)).Error = "CMS_final failed: " ++ lib ∧
    (GoError.wrap "i2d_CMS_bio_stream failed: " (.new lib)).Error =
      "i2d_CMS_bio_stream failed: " ++ lib ∧
    (∀ e, (EncryptCMS ssl data recipient fs).out = .ret (.error e) →
      e ∉ checkErrors → e ∉ bufferErrors → lib.data <:+: e.Error.data) := by
  subst hlib
  have hlast : lastError ssl = some (.new (ssl.errErrorString ssl.errGetError)) := by
    simp [lastError, hqueue]
  have hinfix : ∀ ctx : String, (ssl.errErrorString ssl.errGetError).data <:+:
      (ctx ++ ssl.errErrorString ssl.errGetError).data := fun ctx => by
    rw [String.data_append]
    exact (List.suffix_append _ _).isInfix
  refine ⟨fun h1 => ?_, fun cms h1 => ⟨fun h2 => ?_, fun c h2 => ⟨fun h3 => ?_, fun x h3 =>
    ⟨fun h4 => ?_, fun h4 h5 bi h6 => ⟨fun h7 => ?_, fun h7 bo h8 =>
      ⟨fun h9 => ?_, fun h9 h10 => ?_⟩⟩⟩⟩⟩, rfl, ?_, rfl, rfl, rfl, fun e herr hcheck hbuf => ?_⟩
  · rw [EncryptCMS_of_path (.initFailed h1), hlast]; rfl
  · rw [EncryptCMS_of_path (.invalidCert cms h1 h2)]
  · rw [EncryptCMS_of_path (.convertFailed cms c h1 h2 h3), hlast]; rfl
  · rw [EncryptCMS_of_path (.addFailed cms c x h1 h2 h3 h4), hlast]; rfl
  · rw [EncryptCMS_of_path (.finalFailed cms c x bi h1 h2 h3 h4 h5 h6 h7), hlast]; rfl
  · rw [EncryptCMS_of_path (.serializeFailed cms c x bi bo h1 h2 h3 h4 h5 h6 h7 h8 h9), hlast]
    rfl
  · rw [EncryptCMS_of_path (.noOutput cms c x bi bo h1 h2 h3 h4 h5 h6 h7 h8 h9 h10)]
  · simp only [GoError.Error, ← String.append_assoc]
    rfl
  · obtain ⟨out, calls, heq, hp⟩ := EncryptCMS_path ssl data recipient fs
    rw [heq] at herr
    cases hp <;> simp only [Outcome.ret.injEq, Except.error.injEq, reduceCtorEq] at herr <;>
      subst herr
    case invalidCert | noOutput => exact absurd (by simp [checkErrors]) hcheck
    case inputBioFailed | outputBioFailed => exact absurd (by simp [bufferErrors]) hbuf
    case convertFailed =>
      simp only [hlast, Errorf, GoError.Error, ← String.append_assoc]
      exact hinfix _
    all_goals
      simp only [hlast, Errorf, GoError.Error]
      exact hinfix _

/-- C6, witness: an error in the queue of the library, with a failing `CMS_encrypt`, with a
failing `d2i_X509`, and with a nil certificate. -/
theorem EncryptCMS_library_error_witness :
    (EncryptCMS sslInitFails [104, 105] (some certDemo) fsEmpty).out =
      .ret (.error (.wrap "CMS_encrypt failed: "
        (.new "error:0308010C:digital envelope routines::unsupported"))) ∧
    (EncryptCMS sslConvertFails [104, 105] (some certDemo) fsEmpty).out =
      .ret (.error (.wrap "load cert: " (.wrap "error parsing DER certificate: "
        (.new "error:0308010C:digital envelope routines::unsupported")))) ∧
    (EncryptCMS sslStale [104, 105] none fsEmpty).out =
      .ret (.error (.wrap "load cert: " (.new "invalid certificate input"))) ∧
    "error:0308010C:digital envelope routines::unsupported".data <:+:
      (GoError.wrap "CMS_encrypt failed: "
        (.new "error:0308010C:digital envelope routines::unsupported")).Error.data :=
  ⟨(EncryptCMS_library_error sslInitFails [104, 105] (some certDemo) fsEmpty _ (by decide)
      rfl).1 rfl,
    (((EncryptCMS_library_error sslConvertFails [104, 105] (some certDemo) fsEmpty _
      (by decide) rfl).2.1 1 rfl).2 certDemo rfl).1 rfl,
    ((EncryptCMS_library_error sslStale [104, 105] none fsEmpty _ (by decide)
      rfl).2.1 1 rfl).1 rfl,
    (EncryptCMS_library_error sslInitFails [104, 105] (some certDemo) fsEmpty _ (by decide)
      rfl).2.2.2.2.2.2.2 _ rfl (by decide) (by decide)⟩

/-- C8: the memory buffers of the library hold fewer than 2 ^ 31 bytes, so the size that
the output buffer reports fits a 32-bit C int.  Then the bytes that a successful
`EncryptCMS` returns are not empty and are the bytes that `PEM_write_bio_CMS_stream` wrote
into the output buffer, read from the very BIO they were written to right after the
write; so they begin with whatever those bytes begin with.  And when the output buffer
reports a size of zero or less, the call that reads it returns the error "no output data"
and no bytes. -/
theorem EncryptCMS_output (ssl : OpenSSL) (data : List UInt8) (recipient : Option Certificate)
    (fs : FS) (hbio : ssl.memSize < 2 ^ 31) :
    (∀ bytes, (EncryptCMS ssl data recipient fs).out = .ret (.ok bytes) →
      bytes ≠ [] ∧ bytes = ssl.pemOutput ∧
      (∀ header, header <+: ssl.pemOutput → header <+: bytes) ∧
      ∃ bo cms,
        [Call.PEM_write_bio_CMS_stream bo cms, .MACRO_BIO_get_mem_data bo,
          .GoBytes bytes.length] <:+: libCalls (EncryptCMS ssl data recipient fs).trace) ∧
    (ssl.memSize ≤ 0 →
      ∀ bo, Call.MACRO_BIO_get_mem_data bo ∈ libCalls (EncryptCMS ssl data recipient fs).trace →
        (EncryptCMS ssl data recipient fs).out = .ret (.error (.new "no output data"))) := by
  obtain ⟨out, calls, heq, hp⟩ := EncryptCMS_path ssl data recipient fs
  rw [heq]
  simp only [libCalls_map_lib]
  constructor
  · intro bytes hout
    cases hp <;> simp only [Outcome.ret.injEq, Except.ok.injEq, reduceCtorEq] at hout
    case success cms c x bi bo _ _ _ _ _ _ _ _ _ h10 h11 =>
      have hlen := ssl.memValid h10
      have hc : cInt ssl.memSize = ssl.memSize := cInt_of_fits (le_of_lt h10) hbio
      have hn : (cInt ssl.memSize).toNat = ssl.pemOutput.length := by
        rw [hc, hlen]; exact Int.toNat_natCast _
      rw [hn, List.take_length] at hout
      subst hout
      refine ⟨?_, rfl, fun _ h => h, bo, cms, ?_⟩
      · intro hnil
        rw [hnil] at hlen
        simp at hlen
        omega
      · rw [hc, hlen]
        exact ⟨[.EVP_aes_128_gcm,
            .CMS_encrypt none none (CMS_PARTIAL ||| CMS_BINARY) (some cms),
            .CBytes c.Raw ssl.cBytes, .d2i_X509 ssl.cBytes c.Raw.length (some x),
            .free ssl.cBytes, .CMS_add1_recipient_cert cms x 0,
            .BIO_new_mem_buf (cInt data.length) (some bi), .CMS_final cms bi,
            .BIO_s_mem, .BIO_new (some bo)],
          [.BIO_free bo, .BIO_free bi, .X509_free x, .CMS_ContentInfo_free cms], rfl⟩
  · intro hsize bo hmem
    cases hp <;> (try unfold lastErrorCalls at hmem) <;> (try split_ifs at hmem) <;>
      first
        | rfl
        | (exfalso; omega)
        | (exfalso; simp at hmem)

/-- C8, witness: an output buffer of five bytes, and an empty one. -/
theorem EncryptCMS_output_witness :
    sslOk.memSize < 2 ^ 31 ∧
    (EncryptCMS sslOk [104, 105] (some certDemo) fsEmpty).out =
      .ret (.ok [45, 45, 45, 45, 45]) ∧
    ([45, 45, 45, 45, 45] ≠ ([] : List UInt8) ∧ [45, 45, 45, 45, 45] = sslOk.pemOutput) ∧
    (EncryptCMS sslNoOutput [104, 105] (some certDemo) fsEmpty).out =
      .ret (.error (.new "no output data")) :=
  ⟨by decide, rfl,
    ⟨((EncryptCMS_output sslOk [104, 105] (some certDemo) fsEmpty (by decide)).1 _ rfl).1,
      ((EncryptCMS_output sslOk [104, 105] (some certDemo) fsEmpty (by decide)).1 _ rfl).2.1⟩,
    (EncryptCMS_output sslNoOutput [104, 105] (some certDemo) fsEmpty (by decide)).2
      (by decide) 5 (by decide)⟩

/-- C10, at the failing inputs: for a message of 2 ^ 31 bytes the count given to
`BIO_new_mem_buf` is negative, for a message of 2 ^ 32 + 5 bytes it is 5 and the call
returns success, and for an output buffer of 2 ^ 32 bytes the count given to `C.GoBytes`
is 0. -/
theorem EncryptCMS_count_wraps :
    (List.replicate 2147483648 (65 : UInt8)).length = 2147483648 ∧
    Call.BIO_new_mem_buf (-2147483648) (some 4) ∈
      libCalls (EncryptCMS sslOk (List.replicate 2147483648 65) (some certDemo) fsEmpty).trace ∧
    (List.replicate 4294967301 (65 : UInt8)).length = 4294967301 ∧
    Call.BIO_new_mem_buf 5 (some 4) ∈
      libCalls (EncryptCMS sslOk (List.replicate 4294967301 65) (some certDemo) fsEmpty).trace ∧
    (EncryptCMS sslOk (List.replicate 4294967301 65) (some certDemo) fsEmpty).out =
      .ret (.ok [45, 45, 45, 45, 45]) ∧
    sslHuge.memSize = 4294967296 ∧
    Call.GoBytes 0 ∈ libCalls (EncryptCMS sslHuge [104, 105] (some certDemo) fsEmpty).trace := by
  have h31 : cInt ((List.replicate 2147483648 (65 : UInt8)).length : Int) = -2147483648 := by
    rw [List.length_replicate]; decide
  have h32 : cInt ((List.replicate 4294967301 (65 : UInt8)).length : Int) = 5 := by
    rw [List.length_replicate]; decide
  have hout : cInt sslHuge.memSize = 0 := by decide
  have hp31 : EncPath sslOk (List.replicate 2147483648 65) (some certDemo) _ _ :=
    .success 1 certDemo 3 4 5 rfl rfl rfl rfl (by rw [List.length_replicate]; decide) rfl rfl
      rfl rfl (by decide) (by decide)
  have hp32 : EncPath sslOk (List.replicate 4294967301 65) (some certDemo) _ _ :=
    .success 1 certDemo 3 4 5 rfl rfl rfl rfl (by rw [List.length_replicate]; decide) rfl rfl
      rfl rfl (by decide) (by decide)
  have hpOut : EncPath sslHuge [104, 105] (some certDemo) _ _ :=
    .success 1 certDemo 3 4 5 rfl rfl rfl rfl (by decide) rfl rfl rfl rfl (by decide) (by decide)
  refine ⟨List.length_replicate _ _, ?_, List.length_replicate _ _, ?_, ?_, rfl, ?_⟩
  · rw [EncryptCMS_of_path hp31, libCalls_map_lib, h31]
    simp only [List.mem_cons, true_or, or_true]
  · rw [EncryptCMS_of_path hp32, libCalls_map_lib, h32]
    simp only [List.mem_cons, true_or, or_true]
  · rw [EncryptCMS_of_path hp32]
    rfl
  · rw [EncryptCMS_of_path hpOut, libCalls_map_lib, hout]
    simp only [List.mem_cons, true_or, or_true]

/-! ## Claims on `Run` and `main` -/

/-- C2: when the certificate file was read, `Run` returns the format error exactly when
`pem.Decode` finds no block or finds a block whose label is not CERTIFICATE; the run then
consists of the reading of the file and the call of `pem.Decode` alone (no certificate is
parsed, `EncryptCMS` is not called, nothing is opened, written or printed) and leaves the
file system as it was. -/
theorem Run_format_error (env : Env) (options : opts) (fs : FS) (certPEM : List UInt8)
    (hread : readFileResult env fs options.CertificatePath = .ok certPEM) :
    ((Run env options fs).out =
        .ret (some (.new "error to decode PEM block containing certificate")) ↔
      (env.pemDecode certPEM = none ∨
        ∃ b, env.pemDecode certPEM = some b ∧ b.Type_ ≠ "CERTIFICATE")) ∧
    ((env.pemDecode certPEM = none ∨
        ∃ b, env.pemDecode certPEM = some b ∧ b.Type_ ≠ "CERTIFICATE") →
      (Run env options fs).trace =
        [.ReadFile options.CertificatePath, .pemDecode certPEM] ∧
      (Run env options fs).fs = fs) := by
  rw [← pemAccepted_eq_none_iff]
  cases hpem : pemAccepted (env.pemDecode certPEM) with
  | none =>
    rw [Run_pem_failed hread hpem]
    simp [formatError]
  | some block =>
    simp only [reduceCtorEq, iff_false, false_implies, and_true]
    cases hparse : env.ParseCertificate block.Bytes with
    | error err =>
      rw [Run_parse_failed hread hpem hparse]
      simp
    | ok cert =>
      rcases Run_after_load hread hpem hparse with
        ⟨msg, -, h⟩ | ⟨err, henc, h⟩ | h | ⟨op, errno, h⟩ <;> rw [h]
      · simp
      · intro heq
        simp only [Outcome.ret.injEq, Option.some.injEq] at heq
        subst heq
        exact EncryptCMS_ne_formatError henc
      · simp
      · simp

/-- C2, witness: a certificate file that holds a private key. -/
theorem Run_format_error_witness :
    readFileResult envPrivateKey fsDemo optsDemo.CertificatePath = .ok [45, 45] ∧
    (Run envPrivateKey optsDemo fsDemo).out =
      .ret (some (.new "error to decode PEM block containing certificate")) ∧
    (Run envPrivateKey optsDemo fsDemo).trace = [.ReadFile "cert.pem", .pemDecode [45, 45]] :=
  ⟨rfl,
    (Run_format_error envPrivateKey optsDemo fsDemo [45, 45] rfl).1.mpr
      (.inr ⟨_, rfl, by decide⟩),
    ((Run_format_error envPrivateKey optsDemo fsDemo [45, 45] rfl).2
      (.inr ⟨_, rfl, by decide⟩)).1⟩

/-- C5, at the failing input: the output file exists and holds eight bytes, `EncryptCMS`
returns five bytes, `Run` returns success, and the output file then holds the five bytes
followed by the last three bytes of its old content. -/
theorem Run_keeps_old_tail :
    fsDemo "out.pem" = some [65, 66, 67, 68, 69, 70, 71, 72] ∧
    (EncryptCMS envOk.ssl (bytesOf optsDemo.Message) (some ⟨[48]⟩) fsDemo).out =
      .ret (.ok [45, 45, 45, 45, 45]) ∧
    (Run envOk optsDemo fsDemo).out = .ret none ∧
    (Run envOk optsDemo fsDemo).fs "out.pem" = some [45, 45, 45, 45, 45, 70, 71, 72] ∧
    Event.Println (bytesOf "Wrote CMS content to file:" ++ 32 :: bytesOf "out.pem") ∈
      (Run envOk optsDemo fsDemo).trace := by
  refine ⟨rfl, rfl, rfl, rfl, ?_⟩
  decide

/-- C4: `main` runs `Run` exactly when both `-cert` and `-message` are non-empty.  With an
empty `-cert` it prints "missing required argument: -cert" and does nothing else, whatever
`-message` is; with a non-empty `-cert` and an empty `-message` it prints "missing required
argument: -message" and does nothing else; otherwise its events begin with those of `Run`,
whose first event is the reading of the certificate file.  So a cgo call happens only with
a non-empty message, and `main` never ends in the panic of the index expression of
`EncryptCMS`. -/
theorem main_requires_arguments (env : Env) (options : opts) (fs : FS) :
    (options.CertificatePath = "" →
      main env options fs =
        ⟨.ret (), fs, [.Println (bytesOf "missing required argument: -cert")]⟩) ∧
    (options.CertificatePath ≠ "" → options.Message = "" →
      main env options fs =
        ⟨.ret (), fs, [.Println (bytesOf "missing required argument: -message")]⟩) ∧
    (options.CertificatePath ≠ "" → options.Message ≠ "" →
      (Run env options fs).trace <+: (main env options fs).trace ∧
      (main env options fs).fs = (Run env options fs).fs) ∧
    (Event.ReadFile options.CertificatePath ∈ (main env options fs).trace ↔
      options.CertificatePath ≠ "" ∧ options.Message ≠ "") ∧
    (libCalls (main env options fs).trace ≠ [] → bytesOf options.Message ≠ []) ∧
    (main env options fs).out ≠ .panic "runtime error: index out of range [0] with length 0" := by
  by_cases hcert : options.CertificatePath = ""
  · have hmain : main env options fs =
        ⟨.ret (), fs, [.Println (bytesOf "missing required argument: -cert")]⟩ := by
      simp [main, hcert, Println, emit, intercalate_one]
    rw [hmain]
    simp [hcert, libCalls]
  · by_cases hmsg : options.Message = ""
    · have hmain : main env options fs =
          ⟨.ret (), fs, [.Println (bytesOf "missing required argument: -message")]⟩ := by
        simp [main, hcert, hmsg, Println, emit, intercalate_one]
      rw [hmain]
      simp [hcert, hmsg, libCalls]
    · obtain ⟨hfs, htrace, hpanic⟩ := main_runs env fs hcert hmsg
      obtain ⟨t, ht⟩ := Run_trace_head env options fs
      refine ⟨fun h => absurd h hcert, fun _ h => absurd h hmsg,
        fun _ _ => ⟨⟨_, htrace.symm⟩, hfs⟩, ?_, fun _ => bytesOf_ne_nil hmsg, ?_⟩
      · simp [htrace, ht, hcert, hmsg]
      · intro h
        obtain ⟨cert, henc⟩ := Run_panic (hpanic _ h)
        have hlen := EncryptCMS_index_panic henc
        exact bytesOf_ne_nil hmsg (List.length_eq_zero.mp hlen)

/-- C4, witness: the three command lines `-message hi`, `-cert cert.pem` and
`-cert cert.pem -message hi -out out.pem`. -/
theorem main_requires_arguments_witness :
    main envOk ⟨"", "hi", ""⟩ fsDemo =
      ⟨.ret (), fsDemo, [.Println (bytesOf "missing required argument: -cert")]⟩ ∧
    main envOk ⟨"cert.pem", "", ""⟩ fsDemo =
      ⟨.ret (), fsDemo, [.Println (bytesOf "missing required argument: -message")]⟩ ∧
    Event.ReadFile "cert.pem" ∈ (main envOk optsDemo fsDemo).trace :=
  ⟨(main_requires_arguments envOk ⟨"", "hi", ""⟩ fsDemo).1 rfl,
    (main_requires_arguments envOk ⟨"cert.pem", "", ""⟩ fsDemo).2.1 (by decide) rfl,
    (main_requires_arguments envOk optsDemo fsDemo).2.2.2.1.mpr ⟨by decide, by decide⟩⟩

/-- C7, counterexample: two runs whose error is the error of the failing stage itself, not
an error that wraps it, with the message of that error and nothing before it: an
encryption that fails with "no output data", and an output file that cannot be opened. -/
theorem Run_error_unwrapped :
    (EncryptCMS envNoOutput.ssl (bytesOf optsDemo.Message) (some ⟨[48]⟩) fsDemo).out =
      .ret (.error (.new "no output data")) ∧
    (Run envNoOutput optsDemo fsDemo).out = .ret (some (.new "no output data")) ∧
    (∀ ctx inner, GoError.new "no output data" ≠ .wrap ctx inner) ∧
    (GoError.new "no output data").Error = "no output data" ∧
    (EncryptCMS envOpenFails.ssl (bytesOf optsDemo.Message) (some ⟨[48]⟩) fsDemo).out =
      .ret (.ok [45, 45, 45, 45, 45]) ∧
    (OpenFile envOpenFails "out.pem" [.O_WRONLY, .O_CREATE] 0o644 fsDemo).out =
      .ret (.error (.pathError "open" "out.pem" "permission denied")) ∧
    (Run envOpenFails optsDemo fsDemo).out =
      .ret (some (.pathError "open" "out.pem" "permission denied")) ∧
    (∀ ctx inner, GoError.pathError "open" "out.pem" "permission denied" ≠ .wrap ctx inner) ∧
    (GoError.pathError "open" "out.pem" "permission denied").Error =
      "open out.pem: permission denied" := by
  refine ⟨rfl, rfl, ?_, rfl, rfl, rfl, rfl, ?_, by decide⟩ <;>
    · intro ctx inner h
      cases h

/-- C7, as amended: the first stage of `Run` that fails is the last stage of the run, and
the error of the run is: for the reading of the certificate file, the error of
`os.ReadFile` behind the context "failed to read certificate: "; for the PEM decoding, a
new error with a fixed message; for the parsing of the certificate, the error of
`x509.ParseCertificate` behind the context "error parsing certificate: "; for the
encryption, the opening of the output file and the writing to it, the error of
`EncryptCMS`, of `os.OpenFile` and of `fd.Write` itself, unchanged.  `main` prints the
message of the error of the run after "Error running the command:". -/
theorem Run_stage_errors (env : Env) (options : opts) (fs : FS) :
    (∀ err, readFileResult env fs options.CertificatePath = .error err →
      Run env options fs =
        ⟨.ret (some (.wrap "failed to read certificate: " err)), fs,
          [.ReadFile options.CertificatePath]⟩) ∧
    (∀ certPEM, readFileResult env fs options.CertificatePath = .ok certPEM →
      pemAccepted (env.pemDecode certPEM) = none →
      Run env options fs =
        ⟨.ret (some (.new "error to decode PEM block containing certificate")), fs,
          [.ReadFile options.CertificatePath, .pemDecode certPEM]⟩) ∧
    (∀ certPEM block, readFileResult env fs options.CertificatePath = .ok certPEM →
      pemAccepted (env.pemDecode certPEM) = some block →
      (∀ err, env.ParseCertificate block.Bytes = .error err →
        Run env options fs =
          ⟨.ret (some (.wrap "error parsing certificate: " err)), fs,
            [.ReadFile options.CertificatePath, .pemDecode certPEM,
              .ParseCertificate block.Bytes]⟩) ∧
      (∀ cert, env.ParseCertificate block.Bytes = .ok cert →
        (∀ err, (EncryptCMS env.ssl (bytesOf options.Message) (some cert) fs).out =
            .ret (.error err) →
          Run env options fs =
            ⟨.ret (some err), fs,
              [.ReadFile options.CertificatePath, .pemDecode certPEM,
                .ParseCertificate block.Bytes] ++
              (EncryptCMS env.ssl (bytesOf options.Message) (some cert) fs).trace⟩) ∧
        (∀ encrypted, (EncryptCMS env.ssl (bytesOf options.Message) (some cert) fs).out =
            .ret (.ok encrypted) → options.OutFile ≠ "" →
          (∀ errno, env.openFault = some errno →
            Run env options fs =
              ⟨.ret (some (.pathError "open" options.OutFile errno)), fs,
                [.ReadFile options.CertificatePath, .pemDecode certPEM,
                  .ParseCertificate block.Bytes] ++
                (EncryptCMS env.ssl (bytesOf options.Message) (some cert) fs).trace ++
                [.OpenFile options.OutFile [.O_WRONLY, .O_CREATE] 0o644]⟩) ∧
          (∀ n errno, env.openFault = none → env.writeFault = some (n, errno) →
            (Run env options fs).out =
              .ret (some (.pathError "write" options.OutFile errno)))))) ∧
    (∀ err, options.CertificatePath ≠ "" → options.Message ≠ "" →
      (Run env options fs).out = .ret (some err) →
      (main env options fs).trace = (Run env options fs).trace ++
        [.Println (bytesOf "Error running the command:" ++ 32 :: bytesOf err.Error)]) := by
  refine ⟨fun err h => Run_read_failed h, fun certPEM h hpem => Run_pem_failed h hpem,
    fun certPEM block h hpem => ⟨fun err hparse => Run_parse_failed h hpem hparse,
      fun cert hparse => ⟨fun err henc => Run_encrypt_failed h hpem hparse henc,
        fun encrypted henc hout => ⟨fun errno hopen => Run_open_failed h hpem hparse henc hout hopen,
          fun n errno hopen hw => ?_⟩⟩⟩, fun err hcert hmsg hrun => ?_⟩
  · rw [Run_written h hpem hparse henc hout hopen]
    simp [hw]
  · rw [(main_runs env fs hcert hmsg).2.1, hrun]

/-- C7, witness: a certificate file that does not exist. -/
theorem Run_stage_errors_witness :
    readFileResult envOk fsEmpty optsDemo.CertificatePath =
      .error (.pathError "open" "cert.pem" "no such file or directory") ∧
    Run envOk optsDemo fsEmpty =
      ⟨.ret (some (.wrap "failed to read certificate: "
        (.pathError "open" "cert.pem" "no such file or directory"))), fsEmpty,
        [.ReadFile "cert.pem"]⟩ ∧
    (main envOk optsDemo fsEmpty).trace = (Run envOk optsDemo fsEmpty).trace ++
      [.Println (bytesOf "Error running the command:" ++ 32 :: bytesOf (GoError.wrap
        "failed to read certificate: "
        (.pathError "open" "cert.pem" "no such file or directory")).Error)] :=
  ⟨rfl, (Run_stage_errors envOk optsDemo fsEmpty).1 _ rfl,
    (Run_stage_errors envOk optsDemo fsEmpty).2.2.2 _ (by decide) (by decide) rfl⟩

/-! ## What holds next to the claims that fail -/

/-- Next to C5: after a successful run with an output file, the file holds the bytes that
`EncryptCMS` returned followed by what the file held beyond that length; so it holds
exactly those bytes when it did not exist or was not longer. -/
theorem Run_output_content {env : Env} {options : opts} {fs : FS} {certPEM : List UInt8}
    {block : PemBlock} {cert : Certificate} {encrypted : List UInt8}
    (h : readFileResult env fs options.CertificatePath = .ok certPEM)
    (hpem : pemAccepted (env.pemDecode certPEM) = some block)
    (hparse : env.ParseCertificate block.Bytes = .ok cert)
    (henc : (EncryptCMS env.ssl (bytesOf options.Message) (some cert) fs).out =
      .ret (.ok encrypted))
    (hout : options.OutFile ≠ "") (hrun : (Run env options fs).out = .ret none) :
    (Run env options fs).fs options.OutFile =
      some (encrypted ++ ((fs options.OutFile).getD []).drop encrypted.length) ∧
    (((fs options.OutFile).getD []).length ≤ encrypted.length →
      (Run env options fs).fs options.OutFile = some encrypted) := by
  cases hopen : env.openFault with
  | some errno =>
    rw [Run_open_failed h hpem hparse henc hout hopen] at hrun
    simp at hrun
  | none =>
    rw [Run_written h hpem hparse henc hout hopen] at hrun ⊢
    cases hw : env.writeFault with
    | some f => simp [hw] at hrun
    | none =>
      refine ⟨setFile_same _ _ _, fun hlen => ?_⟩
      show setFile fs options.OutFile _ options.OutFile = some encrypted
      rw [setFile_same, List.drop_eq_nil_of_le hlen, List.append_nil]

/-- Next to C9: with an empty message `EncryptCMS` panics exactly when the envelope was
created, the certificate converted and the recipient added; otherwise it returns the
error of the step that failed. -/
theorem EncryptCMS_empty_message (ssl : OpenSSL) (recipient : Option Certificate) (fs : FS) :
    ((EncryptCMS ssl [] recipient fs).out =
        .panic "runtime error: index out of range [0] with length 0" ↔
      ssl.cmsEncrypt ≠ none ∧ validRecipient recipient ≠ none ∧ ssl.d2iX509 ≠ none ∧
        ssl.addRecipient = true) ∧
    (∀ bytes, (EncryptCMS ssl [] recipient fs).out ≠ .ret (.ok bytes)) := by
  obtain ⟨out, calls, heq, hp⟩ := EncryptCMS_path ssl [] recipient fs
  rw [heq]
  cases hp <;> simp_all

/-- Next to C10: for a message of fewer than 2 ^ 31 bytes, the count given to
`BIO_new_mem_buf` is the length of the message. -/
theorem EncryptCMS_count_fits (ssl : OpenSSL) (data : List UInt8)
    (recipient : Option Certificate) (fs : FS) (hfit : (data.length : Int) < 2 ^ 31)
    (n : Int) (res : Option Addr)
    (hcall : Call.BIO_new_mem_buf n res ∈ libCalls (EncryptCMS ssl data recipient fs).trace) :
    n = data.length := by
  obtain ⟨out, calls, heq, hp⟩ := EncryptCMS_path ssl data recipient fs
  rw [heq, libCalls_map_lib] at hcall
  have hc : cInt data.length = data.length := cInt_of_fits (Int.natCast_nonneg _) hfit
  cases hp <;> (try unfold lastErrorCalls at hcall) <;> (try split_ifs at hcall) <;>
    simp at hcall <;> omega

end CmsEncryption
